import Mathlib

/-!
Verification development for the erection-methodology engine
(`backend/app/erection_service.py`).

The Python service is shallowly embedded below. Modelling conventions:

* millimetre coordinates (Python floats) are modelled as exact rationals `ℚ`;
* Python `dict`s are modelled as lists in insertion order; where a claim
  needs the dict key-uniqueness invariant it appears as an explicit
  `Nodup` hypothesis;
* Python's stable `sorted(key=...)` is modelled by the stable insertion
  sort `sortByKey` below (any two stable sorts for the same total
  preorder agree, so this is the same function);
* presentation-only string fields that no claim reads (stage `name`,
  `description`, `instructions`) are omitted from the stage record;
* the `while` loops of `_create_virtual_grid` are expressed by their
  closed form: the loop `x_pos = x_min; while x_pos <= x_max + s: ...;
  x_pos += s` emits exactly the positions `x_min + i*s` for
  `i ≤ ⌊(x_max + s - x_min)/s⌋`.
-/

set_option allowUnsafeReducibility true in
attribute [semireducible] Rat.add Rat.sub Rat.mul Rat.div Rat.inv Rat.neg Rat.floor Rat.ceil

namespace ErectionService

/-- Stable insertion of an element into a list: `a` is placed before the
first element `b` with `le a b`.  Folding it over a list gives exactly the
result of Python's stable `sorted`. -/
def insertLe (le : α → α → Bool) (a : α) : List α → List α
  | [] => [a]
  | b :: l => if le a b then a :: b :: l else b :: insertLe le a l

/-- Stable sort modelling Python's `sorted` with comparison `le`. -/
def sortByKey (le : α → α → Bool) : List α → List α
  | [] => []
  | a :: l => insertLe le a (sortByKey le l)

/-- Lexicographic comparison of character lists, i.e. Python string `<=`. -/
def charListLe : List Char → List Char → Bool
  | [], _ => true
  | _ :: _, [] => false
  | a :: as, b :: bs => if a < b then true else if b < a then false else charListLe as bs

/-- Python string comparison `s <= t` (code-point lexicographic). -/
def strLe (s t : String) : Bool := charListLe s.data t.data

/-- Python `min` over a list of rationals (0 for the empty list, which the
code never asks for). -/
def listMinQ : List ℚ → ℚ
  | [] => 0
  | x :: xs => xs.foldl min x

/-- Python `max` over a list of rationals (0 for the empty list). -/
def listMaxQ : List ℚ → ℚ
  | [] => 0
  | x :: xs => xs.foldl max x

/-- Base-10 value of a digit string (fold over the code points). -/
def strToNat (s : String) : ℕ :=
  s.data.foldl (fun n c => n * 10 + (c.toNat - 48)) 0

/-- Python `t.isdigit()` for ASCII digit strings: non-empty and all
digits. -/
def strIsDigits (s : String) : Bool :=
  !s.data.isEmpty && s.data.all Char.isDigit

/-- Python `int(t) if t.isdigit() else 0` used as a sort key for numeric
grid tags. -/
def tagNum (t : String) : ℕ := if strIsDigits t then strToNat t else 0

/-- Python `ord(t[0].upper()) if t else 0` used as a sort key for letter
grid tags. -/
def ordFirstUpper (t : String) : ℕ :=
  match t.data with
  | [] => 0
  | c :: _ => (Char.toUpper c).toNat

/-- Splitting a character list at every hyphen (Python `str.split("-")`). -/
def splitHyphenAux : List Char → List Char → List (List Char)
  | [], acc => [acc.reverse]
  | c :: cs, acc =>
    if c = '-' then acc.reverse :: splitHyphenAux cs []
    else splitHyphenAux cs (c :: acc)

/-- Python `name.split("-")`. -/
def splitHyphen (s : String) : List String :=
  (splitHyphenAux s.data []).map String.mk

/-- Adjacent pairs `l[i], l[i+1]` of a list (`for i, a in enumerate(l[:-1])`
paired with `l[i+1]`). -/
def adjacentPairs (l : List α) : List (α × α) := l.zip l.tail

/-- Python's `str(n).zfill(2)`. -/
def zfill2 (s : String) : String :=
  if s.length ≥ 2 then s else String.mk ('0' :: s.data)

/-- Grid axis record (`GridAxis` dataclass). -/
structure GridAxis where
  tag : String
  direction : String
  position : ℚ
deriving DecidableEq, Repr

/-- Grid cell record (`GridCell` dataclass).  The `name` property is
`u_axis ++ "-" ++ v_axis`. -/
structure GridCell where
  u_axis : String
  v_axis : String
  x_min : ℚ
  x_max : ℚ
  y_min : ℚ
  y_max : ℚ
deriving DecidableEq, Repr

/-- Cell name property `f"{self.u_axis}-{self.v_axis}"`. -/
def GridCell.name (c : GridCell) : String := c.u_axis ++ "-" ++ c.v_axis

/-- Structural element record (`StructuralElement` dataclass).  The
`grid_cell` assignment and the free-form `properties` bag are not read by
any verified operation and are omitted. -/
structure StructuralElement where
  global_id : String
  express_id : ℕ
  ifc_type : String
  name : String
  x : ℚ
  y : ℚ
  z : ℚ
  level : String
deriving DecidableEq, Repr

/-- Erection zone record (`ErectionZone` dataclass). -/
structure ErectionZone where
  zone_id : ℕ
  name : String
  grid_cells : List String
  x_range : ℚ × ℚ
  y_range : ℚ × ℚ
  elements : List String
  element_counts : List (String × ℕ)
deriving DecidableEq, Repr

/-- Erection stage record (`ErectionStage` dataclass); the presentation
fields `name`, `description` and `instructions` are omitted. -/
structure ErectionStage where
  stage_id : String
  zone_id : ℕ
  element_type : String
  grid_range : String
  elements : List String
  sequence_order : ℕ
deriving DecidableEq, Repr

instance : Inhabited ErectionStage := ⟨⟨"", 0, "", "", [], 0⟩⟩

/-- The `STRUCTURAL_TYPES` table, in source order. -/
def STRUCTURAL_TYPES : List (String × List String) :=
  [("columns", ["IfcColumn"]),
   ("beams", ["IfcBeam"]),
   ("bracing", ["IfcMember", "IfcPlate"]),
   ("slabs", ["IfcSlab"]),
   ("walls", ["IfcWall", "IfcWallStandardCase"]),
   ("footings", ["IfcFooting"]),
   ("stairs", ["IfcStair", "IfcStairFlight"]),
   ("railings", ["IfcRailing"])]

/-- Lookup `self.STRUCTURAL_TYPES.get(element_type, [])`. -/
def structTypes (element_type : String) : List String :=
  ((STRUCTURAL_TYPES.find? (fun p => p.1 == element_type)).map Prod.snd).getD []

/-- Category of an element: first `STRUCTURAL_TYPES` entry whose type list
contains the element's IFC type (the `for category, types ... break` loop). -/
def categoryOf (ifc_type : String) : Option String :=
  (STRUCTURAL_TYPES.find? (fun p => p.2.contains ifc_type)).map Prod.fst

/-- Per-category tallies of a list of elements (the `element_counts`
defaultdict built by the zone loops), in `STRUCTURAL_TYPES` order. -/
def countsByCategory (els : List StructuralElement) : List (String × ℕ) :=
  (STRUCTURAL_TYPES.map Prod.fst).filterMap (fun cat =>
    let n := (els.filter (fun e => (categoryOf e.ifc_type) == some cat)).length
    if n = 0 then none else some (cat, n))

/-- The `PRIMARY_SEQUENCE` list of `_generate_stages`. -/
def PRIMARY_SEQUENCE : List String := ["footings", "columns", "beams", "bracing", "slabs"]

/-- The `SECONDARY_SEQUENCE` list of `_generate_stages`. -/
def SECONDARY_SEQUENCE : List String := ["walls", "stairs", "railings"]

/-- Dictionary insertion `self.grid_cells[cell.name] = cell`: replace an
existing entry with the same name in place, else append. -/
def insertCellByName (l : List GridCell) (c : GridCell) : List GridCell :=
  if l.any (fun d => d.name == c.name) then
    l.map (fun d => if d.name == c.name then c else d)
  else l ++ [c]

/-- Cell records emitted by the nested loops of `_create_grid_cells`, in
emission order (one per adjacent pair of U axes crossed with each adjacent
pair of V axes). -/
def rawCells (u_axes v_axes : List GridAxis) : List GridCell :=
  (adjacentPairs u_axes).flatMap (fun u =>
    (adjacentPairs v_axes).map (fun v =>
      ({ u_axis := u.1.tag
         v_axis := v.1.tag
         x_min := min u.1.position u.2.position
         x_max := max u.1.position u.2.position
         y_min := min v.1.position v.2.position
         y_max := max v.1.position v.2.position } : GridCell)))

/-- The `_create_grid_cells` method: nothing when either family has fewer
than 2 axes, else the emitted cells inserted into the (initially empty)
cell dict keyed by name. -/
def create_grid_cells (u_axes v_axes : List GridAxis) : List GridCell :=
  if u_axes.length < 2 ∨ v_axes.length < 2 then []
  else (rawCells u_axes v_axes).foldl insertCellByName []

/-- Python `dict`-key collection order: first occurrence of each value. -/
def firstDedup [BEq α] : List α → List α
  | [] => []
  | a :: l => a :: (firstDedup l).filter (fun b => !(b == a))

/-- Python's `abs` on a float value. -/
def ratAbs (q : ℚ) : ℚ := if q < 0 then -q else q

/-- Service state: the mutable registries of `ErectionMethodologyService`.
Dicts (`grid_axes`, `grid_cells`, `elements`, `zones`, `levels`) are lists
in insertion order. -/
structure ServiceState where
  grid_axes : List GridAxis
  grid_cells : List GridCell
  elements : List StructuralElement
  zones : List ErectionZone
  stages : List ErectionStage
  levels : List (String × ℚ)
  grid_detected : Bool
deriving DecidableEq, Repr

/-- Dictionary lookup `self.elements.get(eid)` (keys are unique, so the
first hit is the entry). -/
def findElem (els : List StructuralElement) (gid : String) : Option StructuralElement :=
  els.find? (fun e => e.global_id == gid)

/-- Number of zone tiles along one axis:
`min(max(1, ceil(range / zone_size)), 6)`. -/
def zoneCount (range_q size : ℚ) : ℕ :=
  min (max 1 (Rat.ceil (range_q / size)).toNat) 6

/-- Tile iteration order of `_detect_zones`: row-major, `j` (Y) outer and
`i` (X) inner. -/
def tilePairs (num_x num_y : ℕ) : List (ℕ × ℕ) :=
  (List.range num_y).flatMap (fun j => (List.range num_x).map (fun i => (i, j)))

/-- Grid cells whose centre lies in the half-open tile box (the
`zone_cells` loop of `_detect_zones`). -/
def tileCells (cells : List GridCell) (zx0 zx1 zy0 zy1 : ℚ) : List String :=
  (cells.filter (fun c =>
    decide (zx0 ≤ (c.x_min + c.x_max) / 2) && decide ((c.x_min + c.x_max) / 2 < zx1) &&
    decide (zy0 ≤ (c.y_min + c.y_max) / 2) && decide ((c.y_min + c.y_max) / 2 < zy1))).map
    GridCell.name

/-- Membership test of `_detect_zones`: half-open on both coordinates. -/
def inTile (x_min y_min w h : ℚ) (i j : ℕ) (e : StructuralElement) : Bool :=
  decide (x_min + i * w ≤ e.x) && decide (e.x < x_min + i * w + w) &&
  decide (y_min + j * h ≤ e.y) && decide (e.y < y_min + j * h + h)

/-- Zone naming of `_detect_zones`: grid-range name when the zone covers
cells, else `"Zone {id}"`. -/
def zone_name_for (zone_id : ℕ) (zone_cells : List String) : String :=
  if zone_cells.isEmpty then "Zone " ++ Nat.repr zone_id
  else
    let pairs := zone_cells.filterMap (fun n =>
      match splitHyphen n with
      | [a, b] => some (a, b)
      | _ => none)
    let u_tags := firstDedup (pairs.map Prod.fst)
    let v_tags := firstDedup (pairs.map Prod.snd)
    if u_tags.isEmpty ∨ v_tags.isEmpty then "Zone " ++ Nat.repr zone_id
    else
      let u_sorted := sortByKey strLe u_tags
      let v_sorted := sortByKey (fun a b => decide (tagNum a ≤ tagNum b)) v_tags
      "Grid " ++ v_sorted.headD "" ++ "-" ++ v_sorted.getLastD "" ++ " / " ++
        u_sorted.headD "" ++ "-" ++ u_sorted.getLastD ""

/-- Loop body of `_detect_zones` over the row-major tile list; a zone is
appended only when its element list is non-empty, and `zone_id` is the
running count of appended zones plus one. -/
def detect_zones_aux (els : List StructuralElement) (cells : List GridCell)
    (x_min y_min w h : ℚ) : List (ℕ × ℕ) → List ErectionZone → List ErectionZone
  | [], acc => acc
  | (i, j) :: rest, acc =>
    let zx0 := x_min + i * w
    let zy0 := y_min + j * h
    let zone_cells := tileCells cells zx0 (zx0 + w) zy0 (zy0 + h)
    let zone_els := els.filter (inTile x_min y_min w h i j)
    if zone_els.isEmpty then detect_zones_aux els cells x_min y_min w h rest acc
    else
      let zid := acc.length + 1
      detect_zones_aux els cells x_min y_min w h rest (acc ++
        [{ zone_id := zid
           name := zone_name_for zid zone_cells
           grid_cells := zone_cells
           x_range := (zx0, zx0 + w)
           y_range := (zy0, zy0 + h)
           elements := zone_els.map (·.global_id)
           element_counts := countsByCategory zone_els }])

/-- The `_detect_zones` method: tile the element bounding box into at most
6 × 6 tiles of roughly 30 m and collect the non-empty tiles as zones. -/
def detect_zones (els : List StructuralElement) (cells : List GridCell) : List ErectionZone :=
  if els.isEmpty then []
  else
    let xs := els.map (·.x)
    let ys := els.map (·.y)
    let x_min := listMinQ xs
    let x_max := listMaxQ xs
    let y_min := listMinQ ys
    let y_max := listMaxQ ys
    let x_range := x_max - x_min
    let y_range := y_max - y_min
    let num_x := zoneCount x_range 30000
    let num_y := zoneCount y_range 30000
    let zone_width := if 0 < num_x then x_range / num_x else x_range
    let zone_height := if 0 < num_y then y_range / num_y else y_range
    detect_zones_aux els cells x_min y_min zone_width zone_height (tilePairs num_x num_y) []

/-- Elements of a zone on one level (`elements_by_level[level_name]`):
ids resolving to an element whose `level` matches, in zone order. -/
def levelElements (els : List StructuralElement) (zone : ErectionZone)
    (level_name : String) : List String :=
  zone.elements.filter (fun eid => ((findElem els eid).map (·.level)) == some level_name)

/-- Stage element selection: ids on the level whose element has one of the
category's IFC types. -/
def stageElementsFor (els : List StructuralElement) (level_elements : List String)
    (element_type : String) : List String :=
  level_elements.filter (fun eid =>
    (findElem els eid).any (fun e => (structTypes element_type).contains e.ifc_type))

/-- Stage levels sorted ascending by elevation (`sorted(self.levels.items(),
key=lambda x: x[1])`). -/
def sortedLevels (levels : List (String × ℚ)) : List (String × ℚ) :=
  sortByKey (fun a b => decide (a.2 ≤ b.2)) levels

/-- Category emission step of `_generate_stages`: accumulator is the stage
list so far and the global `stage_counter`. -/
def emitCategoryGen (els : List StructuralElement) (zone : ErectionZone)
    (level_name : String) (acc : List ErectionStage × ℕ) (element_type : String) :
    List ErectionStage × ℕ :=
  let stage_els := stageElementsFor els (levelElements els zone level_name) element_type
  if stage_els.isEmpty then acc
  else
    let sub := (acc.1.filter (fun s => s.zone_id == zone.zone_id)).length + 1
    let sid := Nat.repr zone.zone_id ++ "." ++ Nat.repr sub
    (acc.1 ++ [{ stage_id := sid, zone_id := zone.zone_id, element_type := element_type,
                 grid_range := zone.name, elements := stage_els, sequence_order := acc.2 }],
     acc.2 + 1)

/-- One level of one category pass of `_generate_stages` (the
`if not level_elements: continue` guard included). -/
def emitLevelPassGen (els : List StructuralElement) (zone : ErectionZone)
    (cats : List String) (acc : List ErectionStage × ℕ) (lv : String × ℚ) :
    List ErectionStage × ℕ :=
  if (levelElements els zone lv.1).isEmpty then acc
  else cats.foldl (emitCategoryGen els zone lv.1) acc

/-- The `_generate_stages` method: zones in ascending `zone_id`, a primary
pass (levels ascending, categories in `PRIMARY_SEQUENCE` order) then a
secondary pass, with a global `stage_counter` starting at 1. -/
def generate_stages (els : List StructuralElement) (zones : List ErectionZone)
    (levels : List (String × ℚ)) (stages0 : List ErectionStage) : List ErectionStage :=
  let slv := sortedLevels levels
  let zs := sortByKey (fun a b => decide (a.zone_id ≤ b.zone_id)) zones
  (zs.foldl (fun acc zone =>
    slv.foldl (emitLevelPassGen els zone SECONDARY_SEQUENCE)
      (slv.foldl (emitLevelPassGen els zone PRIMARY_SEQUENCE) acc)) (stages0, 1)).1

/-- Sort key of the global renumbering: the Python tuple
`(s.zone_id, s.stage_id)` compared with `zone_id` first and the stage id
as a string. -/
def stageKeyLe (s t : ErectionStage) : Bool :=
  if s.zone_id == t.zone_id then strLe s.stage_id t.stage_id
  else decide (s.zone_id < t.zone_id)

/-- Renumbering pass `for i, stage in enumerate(self.stages):
stage.sequence_order = i + 1`. -/
def renumAux (n : ℕ) : List ErectionStage → List ErectionStage
  | [] => []
  | s :: l => { s with sequence_order := n } :: renumAux (n + 1) l

/-- Global renumbering at the end of `_regenerate_zone_stages`: sort all
stages by `(zone_id, stage_id)` and assign dense `sequence_order`. -/
def renumberStages (stages : List ErectionStage) : List ErectionStage :=
  renumAux 1 (sortByKey stageKeyLe stages)

/-- Category emission step of `_regenerate_zone_stages`: like the
generation step but `sequence_order` is 0 until the renumbering pass. -/
def emitCategoryRegen (els : List StructuralElement) (zone : ErectionZone)
    (level_name : String) (acc : List ErectionStage) (element_type : String) :
    List ErectionStage :=
  let stage_els := stageElementsFor els (levelElements els zone level_name) element_type
  if stage_els.isEmpty then acc
  else
    let sub := (acc.filter (fun s => s.zone_id == zone.zone_id)).length + 1
    let sid := Nat.repr zone.zone_id ++ "." ++ Nat.repr sub
    acc ++ [{ stage_id := sid, zone_id := zone.zone_id, element_type := element_type,
              grid_range := zone.name, elements := stage_els, sequence_order := 0 }]

/-- One level of one category pass of `_regenerate_zone_stages`. -/
def emitLevelPassRegen (els : List StructuralElement) (zone : ErectionZone)
    (cats : List String) (acc : List ErectionStage) (lv : String × ℚ) : List ErectionStage :=
  if (levelElements els zone lv.1).isEmpty then acc
  else cats.foldl (emitCategoryRegen els zone lv.1) acc

/-- The `_regenerate_zone_stages` method: drop the zone's stages, rebuild
them by the same level/category walk, then renumber all stages globally. -/
def regenerate_zone_stages (st : ServiceState) (zone_id : ℕ) : ServiceState :=
  let kept := st.stages.filter (fun s => !(s.zone_id == zone_id))
  match st.zones.find? (fun z => z.zone_id == zone_id) with
  | none => { st with stages := kept }
  | some zone =>
    let zone1 := { zone with
      element_counts := countsByCategory (zone.elements.filterMap (findElem st.elements)) }
    let slv := sortedLevels st.levels
    let acc1 := slv.foldl (emitLevelPassRegen st.elements zone1 PRIMARY_SEQUENCE) kept
    let acc2 := slv.foldl (emitLevelPassRegen st.elements zone1 SECONDARY_SEQUENCE) acc1
    { st with
      zones := st.zones.map (fun z => if z.zone_id == zone_id then zone1 else z)
      stages := renumberStages acc2 }

/-- The `update_zone` method: optional rename (Python skips falsy names),
optional boundary change with element re-membership, then stage
regeneration; `None` when the zone id is unknown. -/
def update_zone (st : ServiceState) (zone_id : ℕ) (name : Option String)
    (x_range y_range : Option (ℚ × ℚ)) : Option ServiceState :=
  match st.zones.find? (fun z => z.zone_id == zone_id) with
  | none => none
  | some zone =>
    let zone1 : ErectionZone := match name with
      | some n => if n == "" then zone else { zone with name := n }
      | none => zone
    let zone2 : ErectionZone := match x_range with
      | some xr => { zone1 with x_range := xr }
      | none => zone1
    let zone3 : ErectionZone := match y_range with
      | some yr => { zone2 with y_range := yr }
      | none => zone2
    let zone4 :=
      if x_range.isSome ∨ y_range.isSome then
        let inz := st.elements.filter (fun e =>
          decide (zone3.x_range.1 ≤ e.x) && decide (e.x < zone3.x_range.2) &&
          decide (zone3.y_range.1 ≤ e.y) && decide (e.y < zone3.y_range.2))
        { zone3 with elements := inz.map (·.global_id), element_counts := countsByCategory inz }
      else zone3
    let st1 := { st with
      zones := st.zones.map (fun z => if z.zone_id == zone_id then zone4 else z) }
    some (regenerate_zone_stages st1 zone_id)

/-- The `get_elements_by_zone` method: `[]` both for an unknown zone id
and for a known zone with no elements. -/
def get_elements_by_zone (st : ServiceState) (zone_id : ℕ) : List StructuralElement :=
  match st.zones.find? (fun z => z.zone_id == zone_id) with
  | none => []
  | some zone => zone.elements.filterMap (findElem st.elements)

/-- The `get_express_ids_by_zone` method. -/
def get_express_ids_by_zone (st : ServiceState) (zone_id : ℕ) : List ℕ :=
  match st.zones.find? (fun z => z.zone_id == zone_id) with
  | none => []
  | some zone => (zone.elements.filterMap (findElem st.elements)).map (·.express_id)

/-- The `get_express_ids_by_stage` method: first stage with the given id,
`[]` when none matches. -/
def get_express_ids_by_stage (st : ServiceState) (stage_id : String) : List ℕ :=
  match st.stages.find? (fun s => s.stage_id == stage_id) with
  | none => []
  | some stage => (stage.elements.filterMap (findElem st.elements)).map (·.express_id)

/-- All structural element express ids (`get_all_express_ids`). -/
def get_all_express_ids (st : ServiceState) : List ℕ :=
  st.elements.map (·.express_id)

/-- Iteration count of the virtual-grid axis loop `while pos <= cmax +
spacing: ... pos += spacing` starting at `cmin`. -/
def virtualAxisCount (cmin cmax spacing : ℚ) : ℕ :=
  (Rat.floor ((cmax + spacing - cmin) / spacing)).toNat + 1

/-- The label alphabet of `_create_virtual_grid` (I and O skipped). -/
def VIRTUAL_LABELS : List Char := "ABCDEFGHJKLMNPQRSTUVWXYZ".data

/-- Label of the i-th virtual U axis: single letter below 24, double
letters from 24 on.  Past index 599 the Python list indexing would raise;
`getD` supplies a dummy there. -/
def virtualULabel (i : ℕ) : String :=
  if i < 24 then String.mk [VIRTUAL_LABELS.getD (i % 24) 'A']
  else String.mk [VIRTUAL_LABELS.getD (i / 24 - 1) 'A', VIRTUAL_LABELS.getD (i % 24) 'A']

/-- The `_create_virtual_grid` axis synthesis: U axes along X and V axes
along Y from the element bounds at fixed 10000 mm spacing. -/
def create_virtual_grid (els : List StructuralElement) : List GridAxis × List GridAxis :=
  if els.isEmpty then ([], [])
  else
    let x_min := listMinQ (els.map (·.x))
    let x_max := listMaxQ (els.map (·.x))
    let y_min := listMinQ (els.map (·.y))
    let y_max := listMaxQ (els.map (·.y))
    let grid_spacing : ℚ := 10000
    ((List.range (virtualAxisCount x_min x_max grid_spacing)).map (fun i =>
        ({ tag := virtualULabel i, direction := "U",
           position := x_min + i * grid_spacing } : GridAxis)),
     (List.range (virtualAxisCount y_min y_max grid_spacing)).map (fun i =>
        ({ tag := zfill2 (Nat.repr (i + 1)), direction := "V",
           position := y_min + i * grid_spacing } : GridAxis)))

/-- The `_map_elements_to_grid` entry into the virtual-grid fallback: when
no cells exist and elements do, synthesize the virtual axes, build cells,
and mark the grid as virtual.  (The per-element `grid_cell` assignment is
not read by any verified operation and is omitted.) -/
def map_elements_to_grid (st : ServiceState) : ServiceState :=
  if st.grid_cells.isEmpty then
    if st.elements.isEmpty then st
    else
      let uv := create_virtual_grid st.elements
      { st with
        grid_axes := st.grid_axes ++ uv.1 ++ uv.2
        grid_cells := create_grid_cells uv.1 uv.2
        grid_detected := false }
  else st

/-- Lexicographic comparison of `(ℕ, ℚ)` sort keys. -/
def pairLeNat (a b : ℕ × ℚ) : Bool :=
  if a.1 == b.1 then decide (a.2 ≤ b.2) else decide (a.1 < b.1)

/-- The V axes sorted by `(int(tag) if digit else 0, position)` as in
`get_express_ids_by_grid_area`. -/
def sortedVAxes (axes : List GridAxis) : List GridAxis :=
  sortByKey (fun a b => pairLeNat (tagNum a.tag, a.position) (tagNum b.tag, b.position))
    (axes.filter (fun a => a.direction == "V"))

/-- The U axes sorted by `(ord(tag[0].upper()) if tag else 0, position)`. -/
def sortedUAxes (axes : List GridAxis) : List GridAxis :=
  sortByKey (fun a b =>
      pairLeNat (ordFirstUpper a.tag, a.position) (ordFirstUpper b.tag, b.position))
    (axes.filter (fun a => a.direction == "U"))

/-- Python truthiness of the optional `element_type` argument (both `None`
and the empty string disable the filter). -/
def typeFilterActive (element_type : Option String) : Bool :=
  !(element_type.getD "" == "")

/-- Per-element category filter applied by the query paths. -/
def typeOk (element_type : Option String) (e : StructuralElement) : Bool :=
  if typeFilterActive element_type then
    (structTypes (element_type.getD "")).contains e.ifc_type
  else true

/-- The `_filter_by_type` method. -/
def filter_by_type (els : List StructuralElement) (element_type : Option String) : List ℕ :=
  if typeFilterActive element_type then
    (els.filter (fun e => (structTypes (element_type.getD "")).contains e.ifc_type)).map
      (·.express_id)
  else els.map (·.express_id)

/-- Tag list of the proportional strategy for the U family, sorted by
first-letter code point. -/
def proportionalUTags (u_axes : List GridAxis) : List String :=
  sortByKey (fun a b => decide (ordFirstUpper a ≤ ordFirstUpper b)) (u_axes.map (·.tag))

/-- Tag list of the proportional strategy for the V family, sorted by
parsed integer value. -/
def proportionalVTags (v_axes : List GridAxis) : List String :=
  sortByKey (fun a b => decide (tagNum a ≤ tagNum b)) (v_axes.map (·.tag))

/-- Index of an endpoint tag in its sorted tag list (`.index` after an
`in` check, with the given default when absent). -/
def endpointIdx (tags : List String) (t : String) (dflt : ℕ) : ℕ :=
  if tags.contains t then tags.findIdx (fun s => s == t) else dflt

/-- The `_get_express_ids_by_proportional_grid` method: locate the
endpoint indices in the sorted tag lists and filter by the proportional
share of the element bounding box, expanded by half a division width. -/
def get_express_ids_by_proportional_grid (els : List StructuralElement)
    (v_start v_end u_start u_end : String) (v_axes u_axes : List GridAxis)
    (element_type : Option String) : List ℕ :=
  if els.isEmpty then []
  else
    let x_min := listMinQ (els.map (·.x))
    let x_max := listMaxQ (els.map (·.x))
    let y_min := listMinQ (els.map (·.y))
    let y_max := listMaxQ (els.map (·.y))
    let x_range := if x_min < x_max then x_max - x_min else 1
    let y_range := if y_min < y_max then y_max - y_min else 1
    let u_tags := proportionalUTags u_axes
    let v_tags := proportionalVTags v_axes
    if u_tags.isEmpty ∨ v_tags.isEmpty then filter_by_type els element_type
    else
      let u_lo := min (endpointIdx u_tags u_start 0) (endpointIdx u_tags u_end (u_tags.length - 1))
      let u_hi := max (endpointIdx u_tags u_start 0) (endpointIdx u_tags u_end (u_tags.length - 1))
      let v_lo := min (endpointIdx v_tags v_start 0) (endpointIdx v_tags v_end (v_tags.length - 1))
      let v_hi := max (endpointIdx v_tags v_start 0) (endpointIdx v_tags v_end (v_tags.length - 1))
      let num_u : ℚ := u_tags.length
      let num_v : ℚ := v_tags.length
      let x_start := x_min + ((u_lo : ℚ) / num_u) * x_range - x_range / num_u / 2
      let x_end := x_min + (((u_hi : ℚ) + 1) / num_u) * x_range + x_range / num_u / 2
      let y_start := y_min + ((v_lo : ℚ) / num_v) * y_range - y_range / num_v / 2
      let y_end := y_min + (((v_hi : ℚ) + 1) / num_v) * y_range + y_range / num_v / 2
      (els.filter (fun e =>
        decide (x_start ≤ e.x) && decide (e.x ≤ x_end) &&
        decide (y_start ≤ e.y) && decide (e.y ≤ y_end) &&
        typeOk element_type e)).map (·.express_id)

/-- Positions of the axes whose tag is one of the two requested endpoint
tags (the `u_positions` / `v_positions` collection loops). -/
def resolvedPositions (axes : List GridAxis) (tag_start tag_end : String) : List ℚ :=
  (axes.filter (fun a => a.tag == tag_start || a.tag == tag_end)).map (·.position)

/-- Position-based element filter: the resolved span expanded by the
500 mm tolerance on both coordinates, plus the optional category filter. -/
def positionFilteredIds (els : List StructuralElement) (x_min x_max y_min y_max : ℚ)
    (element_type : Option String) : List ℕ :=
  (els.filter (fun e =>
    decide (x_min - 500 ≤ e.x) && decide (e.x ≤ x_max + 500) &&
    decide (y_min - 500 ≤ e.y) && decide (e.y ≤ y_max + 500) &&
    typeOk element_type e)).map (·.express_id)

/-- The `_get_express_ids_by_axis_positions` method: resolve the endpoint
tags to positions, fall back to the proportional strategy when fewer than
two resolve in either family or the span is under 1000 mm, else filter by
the span expanded by a 500 mm tolerance. -/
def get_express_ids_by_axis_positions (els : List StructuralElement)
    (v_start v_end u_start u_end : String) (v_axes u_axes : List GridAxis)
    (element_type : Option String) : List ℕ :=
  let u_positions := resolvedPositions u_axes u_start u_end
  let v_positions := resolvedPositions v_axes v_start v_end
  if u_positions.length < 2 ∨ v_positions.length < 2 then
    get_express_ids_by_proportional_grid els v_start v_end u_start u_end v_axes u_axes element_type
  else
    let x_min := listMinQ u_positions
    let x_max := listMaxQ u_positions
    let y_min := listMinQ v_positions
    let y_max := listMaxQ v_positions
    if ratAbs (x_max - x_min) < 1000 ∨ ratAbs (y_max - y_min) < 1000 then
      get_express_ids_by_proportional_grid els v_start v_end u_start u_end v_axes u_axes element_type
    else
      positionFilteredIds els x_min x_max y_min y_max element_type

/-- The `get_express_ids_by_grid_area` method: position-based path when
both families have more than one distinct axis position, else the
proportional path. -/
def get_express_ids_by_grid_area (st : ServiceState) (v_start v_end u_start u_end : String)
    (element_type : Option String) : List ℕ :=
  let v_axes := sortedVAxes st.grid_axes
  let u_axes := sortedUAxes st.grid_axes
  if 1 < (v_axes.map (·.position)).dedup.length ∧ 1 < (u_axes.map (·.position)).dedup.length then
    get_express_ids_by_axis_positions st.elements v_start v_end u_start u_end v_axes u_axes
      element_type
  else
    get_express_ids_by_proportional_grid st.elements v_start v_end u_start u_end v_axes u_axes
      element_type

/-- User sequence declaration consumed by `generate_from_user_sequences`
(`sequence_number`, `grid_selection`, `splits`). -/
structure UserSequence where
  sequence_number : ℕ
  v_start : String
  v_end : String
  u_start : String
  u_end : String
  splits : List String
deriving DecidableEq, Repr

/-- The `express_to_elem` reverse lookup (a dict comprehension, so the
last element with a given express id wins). -/
def expressLookup (els : List StructuralElement) (eid : ℕ) : Option StructuralElement :=
  els.reverse.find? (fun e => e.express_id == eid)

/-- Elements of one sub-range: the untyped grid-area query resolved back
to element records. -/
def areaElements (st : ServiceState) (v_s v_e u_s u_e : String) : List StructuralElement :=
  (get_express_ids_by_grid_area st v_s v_e u_s u_e none).filterMap (expressLookup st.elements)

/-- Elements of one level group (`level_groups[lvl]`). -/
def levelGroup (area : List StructuralElement) (lvl : String) : List StructuralElement :=
  area.filter (fun e => e.level == lvl)

/-- Level keys of a sub-range sorted bottom-to-top by minimum element
elevation (`sorted(level_groups.keys(), key=min z)`). -/
def sortedLevelKeys (area : List StructuralElement) : List String :=
  sortByKey (fun l1 l2 =>
      decide (listMinQ ((levelGroup area l1).map (·.z)) ≤
        listMinQ ((levelGroup area l2).map (·.z))))
    (firstDedup (area.map (·.level)))

/-- Appends one user-sequence stage; accumulator is
`(stages, sub_stage, stage_order)`. -/
def pushUserStage (seq_num : ℕ) (stage_grid_range : String) (element_type : String)
    (ids : List ℕ) (acc : List ErectionStage × ℕ × ℕ) : List ErectionStage × ℕ × ℕ :=
  let sid := Nat.repr seq_num ++ "." ++ Nat.repr acc.2.1
  (acc.1 ++ [{ stage_id := sid, zone_id := seq_num, element_type := element_type,
               grid_range := stage_grid_range, elements := ids.map Nat.repr,
               sequence_order := acc.2.2 }],
   acc.2.1 + 1, acc.2.2 + 1)

/-- Per-level emission of `generate_from_user_sequences`: foundations (if
enabled), columns, then beams together with bracing. -/
def emitUserLevel (seq_num : ℕ) (include_footings : Bool) (grid_range : String)
    (multi : Bool) (area : List StructuralElement) (acc : List ErectionStage × ℕ × ℕ)
    (lvl : String) : List ErectionStage × ℕ × ℕ :=
  let level_elems := levelGroup area lvl
  let stage_grid_range := if multi then grid_range ++ " - " ++ lvl else grid_range
  let footing_ids := (level_elems.filter (fun e => (structTypes "footings").contains e.ifc_type)).map (·.express_id)
  let column_ids := (level_elems.filter (fun e => (structTypes "columns").contains e.ifc_type)).map (·.express_id)
  let beam_ids := (level_elems.filter (fun e => (structTypes "beams").contains e.ifc_type)).map (·.express_id)
  let bracing_ids := (level_elems.filter (fun e => (structTypes "bracing").contains e.ifc_type)).map (·.express_id)
  let acc1 := if include_footings && !footing_ids.isEmpty then
    pushUserStage seq_num stage_grid_range "footings" footing_ids acc else acc
  let acc2 := if !column_ids.isEmpty then
    pushUserStage seq_num stage_grid_range "columns" column_ids acc1 else acc1
  if !(beam_ids ++ bracing_ids).isEmpty then
    pushUserStage seq_num stage_grid_range "beams" (beam_ids ++ bracing_ids) acc2
  else acc2

/-- Per-sub-range emission of `generate_from_user_sequences`: query the
area, group by level, and emit the per-level stages bottom-up. -/
def emitUserRange (st : ServiceState) (seq_num : ℕ) (include_footings : Bool)
    (u_s u_e : String) (acc : List ErectionStage × ℕ × ℕ) (vr : String × String) :
    List ErectionStage × ℕ × ℕ :=
  let grid_range := "Grid " ++ vr.1 ++ "-" ++ vr.2 ++ " / " ++ u_s ++ "-" ++ u_e
  let area := areaElements st vr.1 vr.2 u_s u_e
  if area.isEmpty then acc
  else
    let lvls := sortedLevelKeys area
    let multi := decide (1 < lvls.length)
    lvls.foldl (emitUserLevel seq_num include_footings grid_range multi area) acc

/-- Zone `element_counts` built from the zone's stages at the end of a
user sequence (keyed by `element_type` in first-stage order). -/
def userZoneCounts (stages : List ErectionStage) : List (String × ℕ) :=
  (firstDedup (stages.map (·.element_type))).map (fun t =>
    (t, ((stages.filter (fun s => s.element_type == t)).map (fun s => s.elements.length)).sum))

/-- Dict insertion `self.zones[zone_id] = zone`. -/
def insertZoneById (zs : List ErectionZone) (z : ErectionZone) : List ErectionZone :=
  if zs.any (fun w => w.zone_id == z.zone_id) then
    zs.map (fun w => if w.zone_id == z.zone_id then z else w)
  else zs ++ [z]

/-- Processing of one user sequence: split the V range, emit stages per
sub-range, then store the zone holding all of its stages' elements. -/
def processUserSequence (st : ServiceState) (include_footings : Bool)
    (acc : List ErectionZone × List ErectionStage × ℕ) (seq : UserSequence) :
    List ErectionZone × List ErectionStage × ℕ :=
  let splits := sortByKey (fun a b => decide (tagNum a ≤ tagNum b)) seq.splits
  let all_v := [seq.v_start] ++ splits ++ [seq.v_end]
  let v_ranges := adjacentPairs all_v
  let zone_id := seq.sequence_number
  let res := v_ranges.foldl
    (emitUserRange st seq.sequence_number include_footings seq.u_start seq.u_end)
    (acc.2.1, 1, acc.2.2)
  let zone_stages := res.1.filter (fun s => s.zone_id == zone_id)
  let zone : ErectionZone :=
    { zone_id := zone_id
      name := "Grid " ++ seq.v_start ++ "-" ++ seq.v_end ++ " / " ++ seq.u_start ++ "-" ++ seq.u_end
      grid_cells := []
      x_range := (0, 0)
      y_range := (0, 0)
      elements := zone_stages.flatMap (·.elements)
      element_counts := userZoneCounts zone_stages }
  (insertZoneById acc.1 zone, res.1, res.2.2)

/-- The `generate_from_user_sequences` method: clears all zones and
stages, then rebuilds them from the declared sequences. -/
def generate_from_user_sequences (st : ServiceState) (seqs : List UserSequence)
    (include_footings : Bool) : ServiceState :=
  let res := seqs.foldl (processUserSequence st include_footings) ([], [], 1)
  { st with zones := res.1, stages := res.2.1 }

/-! Helper lemmas about the list combinators used by the embedding. -/

theorem adjacentPairs_map_fst : ∀ (l : List α), (adjacentPairs l).map Prod.fst = l.dropLast
  | [] => rfl
  | [_] => rfl
  | a :: b :: t => by
    have ih := adjacentPairs_map_fst (b :: t)
    simp only [adjacentPairs, List.tail_cons, List.zip_cons_cons, List.map_cons] at *
    simp [ih]

theorem adjacentPairs_length (l : List α) : (adjacentPairs l).length = l.length - 1 := by
  have h := congrArg List.length (adjacentPairs_map_fst l)
  simpa [List.length_dropLast] using h

theorem length_flatMap_const {f : α → List β} (l : List α) (m : ℕ)
    (h : ∀ a ∈ l, (f a).length = m) : (l.flatMap f).length = l.length * m := by
  induction l with
  | nil => simp
  | cons a t ih =>
    have ht := ih (fun b hb => h b (List.mem_cons_of_mem a hb))
    simp only [List.flatMap_cons, List.length_append, h a (List.mem_cons_self a t), ht,
      List.length_cons]
    ring

theorem charList_hyphen_inj : ∀ (u1 u2 v1 v2 : List Char),
    '-' ∉ u1 → '-' ∉ u2 → u1 ++ '-' :: v1 = u2 ++ '-' :: v2 → u1 = u2 ∧ v1 = v2
  | [], [], _, _, _, _, h => by simpa using h
  | [], b :: u2, v1, v2, _, h2, h => by
    rw [List.nil_append, List.cons_append] at h
    injection h with hb _
    subst hb
    exact absurd (List.mem_cons_self _ _) h2
  | a :: u1, [], v1, v2, h1, _, h => by
    rw [List.nil_append, List.cons_append] at h
    injection h with ha _
    rw [ha] at h1
    exact absurd (List.mem_cons_self _ _) h1
  | a :: u1, b :: u2, v1, v2, h1, h2, h => by
    rw [List.cons_append, List.cons_append] at h
    injection h with hab hrest
    have := charList_hyphen_inj u1 u2 v1 v2 (fun hm => h1 (List.mem_cons_of_mem _ hm))
      (fun hm => h2 (List.mem_cons_of_mem _ hm)) hrest
    exact ⟨by rw [hab, this.1], this.2⟩

theorem cellName_inj {u1 u2 v1 v2 : String} (h1 : '-' ∉ u1.data) (h2 : '-' ∉ u2.data)
    (h : u1 ++ "-" ++ v1 = u2 ++ "-" ++ v2) : u1 = u2 ∧ v1 = v2 := by
  have hd : u1.data ++ '-' :: v1.data = u2.data ++ '-' :: v2.data := by
    have := congrArg String.data h
    simpa [String.data_append] using this
  obtain ⟨ha, hb⟩ := charList_hyphen_inj u1.data u2.data v1.data v2.data h1 h2 hd
  exact ⟨String.ext ha, String.ext hb⟩

theorem foldl_insertCellByName_of_nodup :
    ∀ (cs : List GridCell) (acc : List GridCell),
      ((acc ++ cs).map GridCell.name).Nodup →
      cs.foldl insertCellByName acc = acc ++ cs
  | [], acc, _ => by simp
  | c :: cs, acc, h => by
    have hnin : c.name ∉ acc.map GridCell.name := by
      intro hmem
      have : (List.map GridCell.name acc ++ List.map GridCell.name (c :: cs)).Nodup := by
        simpa [List.map_append] using h
      rw [List.nodup_append] at this
      exact this.2.2 hmem (by simp)
    have hany : acc.any (fun d => d.name == c.name) = false := by
      rw [List.any_eq_false]
      intro d hd
      simp only [beq_iff_eq]
      intro hc
      exact hnin (hc ▸ List.mem_map_of_mem GridCell.name hd)
    have step : insertCellByName acc c = acc ++ [c] := by
      simp [insertCellByName, hany]
    have ih := foldl_insertCellByName_of_nodup cs (acc ++ [c]) (by simpa using h)
    simp only [List.foldl_cons, step, ih, List.append_assoc, List.singleton_append]

theorem string_append_left_cancel {s t₁ t₂ : String} (h : s ++ t₁ = s ++ t₂) : t₁ = t₂ := by
  apply String.ext
  have := congrArg String.data h
  simp only [String.data_append] at this
  exact List.append_cancel_left this

theorem rawCells_map_name (u_axes v_axes : List GridAxis) :
    (rawCells u_axes v_axes).map GridCell.name =
      ((adjacentPairs u_axes).map (fun p => p.1.tag)).flatMap (fun s =>
        ((adjacentPairs v_axes).map (fun q => q.1.tag)).map (fun t => s ++ "-" ++ t)) := by
  simp only [rawCells, List.map_flatMap, List.map_map, List.flatMap_map]
  rfl

theorem adjacent_first_tags_nodup (axes : List GridAxis)
    (h : (axes.map GridAxis.tag).Nodup) :
    ((adjacentPairs axes).map (fun p => p.1.tag)).Nodup := by
  have h1 : (adjacentPairs axes).map (fun p => p.1.tag) =
      (axes.dropLast).map GridAxis.tag := by
    have := adjacentPairs_map_fst axes
    calc (adjacentPairs axes).map (fun p => p.1.tag)
        = ((adjacentPairs axes).map Prod.fst).map GridAxis.tag := by
          simp [List.map_map]
      _ = (axes.dropLast).map GridAxis.tag := by rw [this]
  rw [h1]
  exact ((List.dropLast_sublist axes).map GridAxis.tag).nodup h

theorem adjacent_first_tag_mem {axes : List GridAxis} {s : String}
    (hs : s ∈ (adjacentPairs axes).map (fun p => p.1.tag)) :
    ∃ a ∈ axes, a.tag = s := by
  obtain ⟨p, hp, hps⟩ := List.mem_map.1 hs
  exact ⟨p.1, (List.of_mem_zip hp).1, hps⟩

theorem rawCells_names_nodup (u_axes v_axes : List GridAxis)
    (hu : (u_axes.map GridAxis.tag).Nodup) (hv : (v_axes.map GridAxis.tag).Nodup)
    (hud : ∀ a ∈ u_axes, '-' ∉ a.tag.data) (hvd : ∀ a ∈ v_axes, '-' ∉ a.tag.data) :
    ((rawCells u_axes v_axes).map GridCell.name).Nodup := by
  rw [rawCells_map_name]
  rw [List.nodup_flatMap]
  have hun := adjacent_first_tags_nodup u_axes hu
  have hvn := adjacent_first_tags_nodup v_axes hv
  constructor
  · intro s _
    refine hvn.map ?_
    intro t₁ t₂ hteq
    exact string_append_left_cancel hteq
  · refine List.Pairwise.imp_of_mem ?_ hun
    intro s t hs ht hne
    intro x hxs hxt
    obtain ⟨t₁, ht₁m, ht₁⟩ := List.mem_map.1 hxs
    obtain ⟨t₂, ht₂m, ht₂⟩ := List.mem_map.1 hxt
    have hm : s ++ "-" ++ t₁ = t ++ "-" ++ t₂ := by rw [ht₁, ht₂]
    obtain ⟨as_, has_, hats⟩ := adjacent_first_tag_mem hs
    obtain ⟨at_, hat_, hatt⟩ := adjacent_first_tag_mem ht
    have hsd : '-' ∉ s.data := hats ▸ hud as_ has_
    have htd : '-' ∉ t.data := hatt ▸ hud at_ hat_
    exact hne (cellName_inj hsd htd hm).1

/-- Claim C2: for a grid with at least two axes in each family (distinct,
hyphen-free tags), `_create_grid_cells` produces exactly
`(N−1)·(M−1)` cells — one per adjacent pair of primary axes crossed with
each adjacent pair of secondary axes; with fewer than two axes in either
family it produces none. -/
theorem C2_grid_cell_count (u_axes v_axes : List GridAxis)
    (hu : (u_axes.map GridAxis.tag).Nodup) (hv : (v_axes.map GridAxis.tag).Nodup)
    (hud : ∀ a ∈ u_axes, '-' ∉ a.tag.data) (hvd : ∀ a ∈ v_axes, '-' ∉ a.tag.data) :
    (2 ≤ u_axes.length → 2 ≤ v_axes.length →
      (create_grid_cells u_axes v_axes).length = (u_axes.length - 1) * (v_axes.length - 1)) ∧
    (u_axes.length < 2 ∨ v_axes.length < 2 → create_grid_cells u_axes v_axes = []) := by
  constructor
  · intro h2u h2v
    have hcond : ¬ (u_axes.length < 2 ∨ v_axes.length < 2) := by omega
    have hfold : (rawCells u_axes v_axes).foldl insertCellByName [] = rawCells u_axes v_axes := by
      have := foldl_insertCellByName_of_nodup (rawCells u_axes v_axes) []
      simpa using this (by simpa using rawCells_names_nodup u_axes v_axes hu hv hud hvd)
    have hlen : (rawCells u_axes v_axes).length = (u_axes.length - 1) * (v_axes.length - 1) := by
      rw [rawCells, length_flatMap_const _ (v_axes.length - 1) (fun p _ => by
        simp [adjacentPairs_length])]
      rw [adjacentPairs_length]
    simp only [create_grid_cells, if_neg hcond]
    rw [hfold, hlen]
  · intro h
    simp [create_grid_cells, if_pos h]

/-- Witness for C2 at a concrete 3 × 2 grid. -/
theorem C2_grid_cell_count_witness :
    (create_grid_cells
        [⟨"A", "U", 0⟩, ⟨"B", "U", 10000⟩, ⟨"C", "U", 20000⟩]
        [⟨"1", "V", 0⟩, ⟨"2", "V", 8000⟩]).length = 2 * 1 := by
  have h := C2_grid_cell_count
    [⟨"A", "U", 0⟩, ⟨"B", "U", 10000⟩, ⟨"C", "U", 20000⟩]
    [⟨"1", "V", 0⟩, ⟨"2", "V", 8000⟩]
    (by decide) (by decide) (by decide) (by decide)
  exact h.1 (by decide) (by decide)

/-! Bounds for the Python `min`/`max` model. -/

theorem foldl_min_le_init (b : ℚ) : ∀ (l : List ℚ), l.foldl min b ≤ b
  | [] => le_refl b
  | a :: t => le_trans (foldl_min_le_init (min b a) t) (min_le_left b a)

theorem foldl_min_le_mem {a : ℚ} : ∀ (l : List ℚ) (b : ℚ), a ∈ l → l.foldl min b ≤ a
  | [], _, h => absurd h (List.not_mem_nil a)
  | c :: t, b, h => by
    rcases List.mem_cons.1 h with h1 | h2
    · subst h1
      exact le_trans (foldl_min_le_init (min b a) t) (min_le_right b a)
    · exact foldl_min_le_mem t (min b c) h2

theorem init_le_foldl_max (b : ℚ) : ∀ (l : List ℚ), b ≤ l.foldl max b
  | [] => le_refl b
  | a :: t => le_trans (le_max_left b a) (init_le_foldl_max (max b a) t)

theorem mem_le_foldl_max {a : ℚ} : ∀ (l : List ℚ) (b : ℚ), a ∈ l → a ≤ l.foldl max b
  | [], _, h => absurd h (List.not_mem_nil a)
  | c :: t, b, h => by
    rcases List.mem_cons.1 h with h1 | h2
    · subst h1
      exact le_trans (le_max_right b a) (init_le_foldl_max (max b a) t)
    · exact mem_le_foldl_max t (max b c) h2

theorem listMinQ_le {l : List ℚ} {a : ℚ} (h : a ∈ l) : listMinQ l ≤ a := by
  cases l with
  | nil => cases h
  | cons c t =>
    rcases List.mem_cons.1 h with h1 | h2
    · subst h1
      exact foldl_min_le_init a t
    · exact foldl_min_le_mem t c h2

theorem le_listMaxQ {l : List ℚ} {a : ℚ} (h : a ∈ l) : a ≤ listMaxQ l := by
  cases l with
  | nil => cases h
  | cons c t =>
    rcases List.mem_cons.1 h with h1 | h2
    · subst h1
      exact init_le_foldl_max a t
    · exact mem_le_foldl_max t c h2

theorem listMinQ_le_listMaxQ {l : List ℚ} (h : l ≠ []) : listMinQ l ≤ listMaxQ l := by
  cases l with
  | nil => exact absurd rfl h
  | cons c t => exact le_trans (listMinQ_le (List.mem_cons_self c t)) (le_listMaxQ (List.mem_cons_self c t))

/-! Facts about the virtual-grid axis loop. -/

theorem virtualAxisCount_ge_two {cmin cmax : ℚ} (h : cmin ≤ cmax) :
    2 ≤ virtualAxisCount cmin cmax 10000 := by
  have hfl : Rat.floor ((cmax + 10000 - cmin) / 10000) = ⌊(cmax + 10000 - cmin) / 10000⌋ := rfl
  have h1 : (1 : ℤ) ≤ ⌊(cmax + 10000 - cmin) / 10000⌋ := by
    rw [Int.le_floor]
    rw [le_div_iff (by norm_num : (0:ℚ) < 10000)]
    push_cast
    linarith
  unfold virtualAxisCount
  rw [hfl]
  omega

theorem virtualAxisCount_last_gt {cmin cmax : ℚ} (h : cmin ≤ cmax) :
    cmax < cmin + ((virtualAxisCount cmin cmax 10000 : ℚ) - 1) * 10000 := by
  have hfl : Rat.floor ((cmax + 10000 - cmin) / 10000) = ⌊(cmax + 10000 - cmin) / 10000⌋ := rfl
  set F := ⌊(cmax + 10000 - cmin) / 10000⌋ with hF
  have h0 : (0 : ℤ) ≤ F := by
    rw [hF, Int.le_floor]
    rw [le_div_iff (by norm_num : (0:ℚ) < 10000)]
    push_cast
    linarith
  have hcount : virtualAxisCount cmin cmax 10000 = F.toNat + 1 := by
    unfold virtualAxisCount
    rw [hfl]
  have htn : ((F.toNat : ℚ)) = (F : ℚ) := by
    norm_cast
    omega
  have hcast : ((virtualAxisCount cmin cmax 10000 : ℚ)) - 1 = (F : ℚ) := by
    rw [hcount]
    push_cast
    rw [htn]
    ring
  rw [hcast]
  have hlt : (cmax + 10000 - cmin) / 10000 < (F : ℚ) + 1 := by
    rw [hF]
    exact Int.lt_floor_add_one _
  rw [div_lt_iff (by norm_num : (0:ℚ) < 10000)] at hlt
  linarith

set_option maxRecDepth 16000 in
/-- Claim C7: with no explicit grid and at least one element, the
synthesized virtual grid has U axes along X starting at the minimum
element X at 10000 mm spacing with the I/O-skipping letter labels (double
letters from index 24 on), V axes along Y at the same spacing labelled
with zero-padded numbers from "01", the axes cover the full element range,
and the grid is reported as virtual. -/
theorem C7_virtual_grid (els : List StructuralElement) (hne : els ≠ []) :
    (2 ≤ (create_virtual_grid els).1.length ∧
     2 ≤ (create_virtual_grid els).2.length) ∧
    (∀ i, (h : i < (create_virtual_grid els).1.length) →
      (create_virtual_grid els).1[i] =
        ({ tag := virtualULabel i, direction := "U",
           position := listMinQ (els.map (·.x)) + i * 10000 } : GridAxis)) ∧
    (∀ i, (h : i < (create_virtual_grid els).2.length) →
      (create_virtual_grid els).2[i] =
        ({ tag := zfill2 (Nat.repr (i + 1)), direction := "V",
           position := listMinQ (els.map (·.y)) + i * 10000 } : GridAxis)) ∧
    (∀ e ∈ els, e.x < listMinQ (els.map (·.x)) +
      ((create_virtual_grid els).1.length - 1 : ℕ) * 10000 ∧
      e.y < listMinQ (els.map (·.y)) +
      ((create_virtual_grid els).2.length - 1 : ℕ) * 10000) ∧
    (∀ i, i < 24 → (virtualULabel i).data.length = 1) ∧
    (∀ i, 24 ≤ i → i < 600 → (virtualULabel i).data.length = 2) ∧
    (∀ i, i < 600 → ('I' ∉ (virtualULabel i).data ∧ 'O' ∉ (virtualULabel i).data)) ∧
    (∀ n, n < 99 → (zfill2 (Nat.repr (n + 1))).data.length = 2) ∧
    (∀ st : ServiceState, st.grid_cells = [] → st.elements = els →
      (map_elements_to_grid st).grid_detected = false) := by
  have hie : els.isEmpty = false := by
    cases els with
    | nil => exact absurd rfl hne
    | cons a t => rfl
  have hxne : els.map (·.x) ≠ [] := by simpa using hne
  have hyne : els.map (·.y) ≠ [] := by simpa using hne
  have hx : listMinQ (els.map (·.x)) ≤ listMaxQ (els.map (·.x)) := listMinQ_le_listMaxQ hxne
  have hy : listMinQ (els.map (·.y)) ≤ listMaxQ (els.map (·.y)) := listMinQ_le_listMaxQ hyne
  have hu_def : (create_virtual_grid els).1 =
      (List.range (virtualAxisCount (listMinQ (els.map (·.x))) (listMaxQ (els.map (·.x))) 10000)).map
        (fun i => ({ tag := virtualULabel i, direction := "U",
                     position := listMinQ (els.map (·.x)) + i * 10000 } : GridAxis)) := by
    simp [create_virtual_grid, hie]
  have hv_def : (create_virtual_grid els).2 =
      (List.range (virtualAxisCount (listMinQ (els.map (·.y))) (listMaxQ (els.map (·.y))) 10000)).map
        (fun i => ({ tag := zfill2 (Nat.repr (i + 1)), direction := "V",
                     position := listMinQ (els.map (·.y)) + i * 10000 } : GridAxis)) := by
    simp [create_virtual_grid, hie]
  have hulen : (create_virtual_grid els).1.length =
      virtualAxisCount (listMinQ (els.map (·.x))) (listMaxQ (els.map (·.x))) 10000 := by
    rw [hu_def]; simp
  have hvlen : (create_virtual_grid els).2.length =
      virtualAxisCount (listMinQ (els.map (·.y))) (listMaxQ (els.map (·.y))) 10000 := by
    rw [hv_def]; simp
  refine ⟨⟨?_, ?_⟩, ?_, ?_, ?_, ?_, ?_, ?_, ?_, ?_⟩
  · rw [hulen]; exact virtualAxisCount_ge_two hx
  · rw [hvlen]; exact virtualAxisCount_ge_two hy
  · intro i h
    simp only [hu_def, List.getElem_map, List.getElem_range]
  · intro i h
    simp only [hv_def, List.getElem_map, List.getElem_range]
  · intro e he
    have hex : e.x ≤ listMaxQ (els.map (·.x)) := le_listMaxQ (by exact List.mem_map_of_mem _ he)
    have hey : e.y ≤ listMaxQ (els.map (·.y)) := le_listMaxQ (by exact List.mem_map_of_mem _ he)
    constructor
    · rw [hulen]
      have := virtualAxisCount_last_gt hx
      have hcast : (((virtualAxisCount (listMinQ (els.map (·.x))) (listMaxQ (els.map (·.x)))
          10000) - 1 : ℕ) : ℚ) =
          ((virtualAxisCount (listMinQ (els.map (·.x))) (listMaxQ (els.map (·.x))) 10000 : ℚ)) - 1 := by
        have h2 := virtualAxisCount_ge_two hx
        push_cast [Nat.cast_sub (by omega : 1 ≤ virtualAxisCount (listMinQ (els.map (·.x)))
          (listMaxQ (els.map (·.x))) 10000)]
        ring
      rw [hcast]
      linarith
    · rw [hvlen]
      have := virtualAxisCount_last_gt hy
      have hcast : (((virtualAxisCount (listMinQ (els.map (·.y))) (listMaxQ (els.map (·.y)))
          10000) - 1 : ℕ) : ℚ) =
          ((virtualAxisCount (listMinQ (els.map (·.y))) (listMaxQ (els.map (·.y))) 10000 : ℚ)) - 1 := by
        have h2 := virtualAxisCount_ge_two hy
        push_cast [Nat.cast_sub (by omega : 1 ≤ virtualAxisCount (listMinQ (els.map (·.y)))
          (listMaxQ (els.map (·.y))) 10000)]
        ring
      rw [hcast]
      linarith
  · decide
  · decide
  · decide
  · decide
  · intro st hc he
    simp [map_elements_to_grid, hc, he, hie]

/-- Witness for C7 at four elements spread over a 40 m square. -/
theorem C7_virtual_grid_witness :
    2 ≤ (create_virtual_grid
      [⟨"a", 1, "IfcColumn", "a", 0, 0, 0, "GF"⟩,
       ⟨"b", 2, "IfcColumn", "b", 40000, 40000, 0, "GF"⟩]).1.length := by
  exact (C7_virtual_grid
    [⟨"a", 1, "IfcColumn", "a", 0, 0, 0, "GF"⟩,
     ⟨"b", 2, "IfcColumn", "b", 40000, 40000, 0, "GF"⟩] (by decide)).1.1

/-! Lemmas about the zone-detection fold. -/

/-- Global ids captured by one tile of the zone grid. -/
def tileGids (els : List StructuralElement) (x_min y_min w h : ℚ) (p : ℕ × ℕ) : List String :=
  (els.filter (inTile x_min y_min w h p.1 p.2)).map (·.global_id)

theorem detect_zones_aux_mem (els : List StructuralElement) (cells : List GridCell)
    (x_min y_min w h : ℚ) :
    ∀ (ps : List (ℕ × ℕ)) (acc : List ErectionZone),
      ∀ z ∈ detect_zones_aux els cells x_min y_min w h ps acc,
        z ∈ acc ∨ ∃ p ∈ ps, z.elements = tileGids els x_min y_min w h p
  | [], acc, z, hz => Or.inl hz
  | (i, j) :: ps, acc, z, hz => by
    rw [detect_zones_aux] at hz
    by_cases hempty : (els.filter (inTile x_min y_min w h i j)).isEmpty
    · rw [if_pos hempty] at hz
      rcases detect_zones_aux_mem els cells x_min y_min w h ps acc z hz with h1 | ⟨p, hp, he⟩
      · exact Or.inl h1
      · exact Or.inr ⟨p, List.mem_cons_of_mem _ hp, he⟩
    · rw [if_neg hempty] at hz
      rcases detect_zones_aux_mem els cells x_min y_min w h ps _ z hz with h1 | ⟨p, hp, he⟩
      · rcases List.mem_append.1 h1 with h2 | h3
        · exact Or.inl h2
        · refine Or.inr ⟨(i, j), List.mem_cons_self _ _, ?_⟩
          have hz3 := List.mem_singleton.1 h3
          rw [hz3]
          rfl
      · exact Or.inr ⟨p, List.mem_cons_of_mem _ hp, he⟩

theorem mem_tilePairs {nx ny : ℕ} {p : ℕ × ℕ} :
    p ∈ tilePairs nx ny ↔ p.1 < nx ∧ p.2 < ny := by
  cases p with
  | mk i j =>
    simp only [tilePairs, List.mem_flatMap, List.mem_map, List.mem_range]
    constructor
    · rintro ⟨j0, hj0, i0, hi0, heq⟩
      cases heq
      exact ⟨hi0, hj0⟩
    · rintro ⟨hi, hj⟩
      exact ⟨j, hj, i, hi, rfl⟩

theorem tilePairs_nodup (nx ny : ℕ) : (tilePairs nx ny).Nodup := by
  rw [tilePairs, List.nodup_flatMap]
  constructor
  · intro j _
    exact (List.nodup_range nx).map (fun i₁ i₂ hi => by
      simpa using congrArg Prod.fst hi)
  · refine List.Pairwise.imp_of_mem ?_ ((List.nodup_range ny))
    intro j₁ j₂ _ _ hne x hx1 hx2
    obtain ⟨i₁, _, hi₁⟩ := List.mem_map.1 hx1
    obtain ⟨i₂, _, hi₂⟩ := List.mem_map.1 hx2
    apply hne
    have := hi₁.trans hi₂.symm
    simpa using congrArg Prod.snd this

theorem inTile_unique {x_min y_min w h : ℚ}
    (hw : 0 ≤ w) (hh : 0 ≤ h) {p q : ℕ × ℕ} {e : StructuralElement}
    (hp : inTile x_min y_min w h p.1 p.2 e = true)
    (hq : inTile x_min y_min w h q.1 q.2 e = true) : p = q := by
  simp only [inTile, Bool.and_eq_true, decide_eq_true_eq] at hp hq
  obtain ⟨⟨⟨hpx1, hpx2⟩, hpy1⟩, hpy2⟩ := hp
  obtain ⟨⟨⟨hqx1, hqx2⟩, hqy1⟩, hqy2⟩ := hq
  have hx : p.1 = q.1 := by
    by_contra hne
    rcases Nat.lt_or_ge p.1 q.1 with hlt | hge
    · have hle : ((p.1 : ℚ) + 1) * w ≤ (q.1 : ℚ) * w := by
        apply mul_le_mul_of_nonneg_right _ hw
        have : (p.1 : ℚ) + 1 ≤ (q.1 : ℚ) := by exact_mod_cast hlt
        linarith
      nlinarith
    · rcases Nat.lt_or_ge q.1 p.1 with hlt2 | hge2
      · have hle : ((q.1 : ℚ) + 1) * w ≤ (p.1 : ℚ) * w := by
          apply mul_le_mul_of_nonneg_right _ hw
          have : (q.1 : ℚ) + 1 ≤ (p.1 : ℚ) := by exact_mod_cast hlt2
          linarith
        nlinarith
      · omega
  have hy : p.2 = q.2 := by
    by_contra hne
    rcases Nat.lt_or_ge p.2 q.2 with hlt | hge
    · have hle : ((p.2 : ℚ) + 1) * h ≤ (q.2 : ℚ) * h := by
        apply mul_le_mul_of_nonneg_right _ hh
        have : (p.2 : ℚ) + 1 ≤ (q.2 : ℚ) := by exact_mod_cast hlt
        linarith
      nlinarith
    · rcases Nat.lt_or_ge q.2 p.2 with hlt2 | hge2
      · have hle : ((q.2 : ℚ) + 1) * h ≤ (p.2 : ℚ) * h := by
          apply mul_le_mul_of_nonneg_right _ hh
          have : (q.2 : ℚ) + 1 ≤ (p.2 : ℚ) := by exact_mod_cast hlt2
          linarith
        nlinarith
      · omega
  exact Prod.ext hx hy

theorem tileGids_disjoint {els : List StructuralElement} {x_min y_min w h : ℚ}
    (hnd : (els.map (·.global_id)).Nodup) (hw : 0 ≤ w) (hh : 0 ≤ h)
    {p q : ℕ × ℕ} (hne : p ≠ q) :
    ∀ g ∈ tileGids els x_min y_min w h p, g ∉ tileGids els x_min y_min w h q := by
  intro g hgp hgq
  obtain ⟨e₁, he₁, hg₁⟩ := List.mem_map.1 hgp
  obtain ⟨e₂, he₂, hg₂⟩ := List.mem_map.1 hgq
  have he₁m := List.mem_of_mem_filter he₁
  have he₂m := List.mem_of_mem_filter he₂
  have heq : e₁ = e₂ :=
    List.inj_on_of_nodup_map hnd he₁m he₂m (by rw [hg₁, hg₂])
  have hp := List.of_mem_filter he₁
  have hq := List.of_mem_filter he₂
  rw [heq] at hp
  exact hne (inTile_unique hw hh hp hq)

theorem detect_zones_aux_pairwise (els : List StructuralElement) (cells : List GridCell)
    (x_min y_min w h : ℚ)
    (hdisj : ∀ p q : ℕ × ℕ, p ≠ q →
      ∀ g ∈ tileGids els x_min y_min w h p, g ∉ tileGids els x_min y_min w h q) :
    ∀ (ps : List (ℕ × ℕ)) (acc : List ErectionZone),
      ps.Nodup →
      (∀ p ∈ ps, ∀ z ∈ acc, ∀ g ∈ z.elements, g ∉ tileGids els x_min y_min w h p) →
      List.Pairwise (fun z1 z2 => ∀ g ∈ z1.elements, g ∉ z2.elements) acc →
      List.Pairwise (fun z1 z2 => ∀ g ∈ z1.elements, g ∉ z2.elements)
        (detect_zones_aux els cells x_min y_min w h ps acc)
  | [], acc, _, _, hpw => hpw
  | (i, j) :: ps, acc, hnd, hacc, hpw => by
    rw [detect_zones_aux]
    by_cases hempty : (els.filter (inTile x_min y_min w h i j)).isEmpty
    · rw [if_pos hempty]
      exact detect_zones_aux_pairwise els cells x_min y_min w h hdisj ps acc
        (List.Nodup.of_cons hnd)
        (fun p hp z hz => hacc p (List.mem_cons_of_mem _ hp) z hz) hpw
    · rw [if_neg hempty]
      apply detect_zones_aux_pairwise els cells x_min y_min w h hdisj ps _
        (List.Nodup.of_cons hnd)
      · intro p hp z hz g hg
        rcases List.mem_append.1 hz with hz1 | hz2
        · exact hacc p (List.mem_cons_of_mem _ hp) z hz1 g hg
        · have hz3 := List.mem_singleton.1 hz2
          have hgz : g ∈ tileGids els x_min y_min w h (i, j) := by
            rw [hz3] at hg
            exact hg
          have hijp : (i, j) ≠ p := by
            intro hcontra
            rw [hcontra] at hnd
            exact (List.nodup_cons.1 hnd).1 hp
          exact hdisj (i, j) p hijp g hgz
      · rw [List.pairwise_append]
        refine ⟨hpw, List.pairwise_singleton _ _, ?_⟩
        intro a ha b hb
        have hb2 := List.mem_singleton.1 hb
        intro g hg
        rw [hb2]
        intro hgb
        exact hacc (i, j) (List.mem_cons_self _ _) a ha g hg hgb

/-- Claim C3: zones produced by automatic tiling have pairwise-disjoint
element sets (the half-open tile intervals partition the plane, so no
global id lands in two zones). -/
theorem C3_zone_elements_pairwise_disjoint (els : List StructuralElement)
    (cells : List GridCell) (hnd : (els.map (·.global_id)).Nodup) :
    List.Pairwise (fun z1 z2 => ∀ g ∈ z1.elements, g ∉ z2.elements)
      (detect_zones els cells) := by
  by_cases hempty : els.isEmpty
  · rw [detect_zones, if_pos hempty]
    exact List.Pairwise.nil
  · rw [detect_zones, if_neg hempty]
    have hne : els ≠ [] := by
      intro hcontra
      rw [hcontra] at hempty
      exact hempty rfl
    have hxne : els.map (·.x) ≠ [] := by simpa using hne
    have hyne : els.map (·.y) ≠ [] := by simpa using hne
    have hxr : (0:ℚ) ≤ listMaxQ (els.map (·.x)) - listMinQ (els.map (·.x)) := by
      have := listMinQ_le_listMaxQ hxne
      linarith
    have hyr : (0:ℚ) ≤ listMaxQ (els.map (·.y)) - listMinQ (els.map (·.y)) := by
      have := listMinQ_le_listMaxQ hyne
      linarith
    have hw : (0:ℚ) ≤ (if 0 < zoneCount (listMaxQ (els.map (·.x)) - listMinQ (els.map (·.x))) 30000
        then (listMaxQ (els.map (·.x)) - listMinQ (els.map (·.x))) /
          (zoneCount (listMaxQ (els.map (·.x)) - listMinQ (els.map (·.x))) 30000 : ℕ)
        else listMaxQ (els.map (·.x)) - listMinQ (els.map (·.x))) := by
      split
      · positivity
      · exact hxr
    have hh : (0:ℚ) ≤ (if 0 < zoneCount (listMaxQ (els.map (·.y)) - listMinQ (els.map (·.y))) 30000
        then (listMaxQ (els.map (·.y)) - listMinQ (els.map (·.y))) /
          (zoneCount (listMaxQ (els.map (·.y)) - listMinQ (els.map (·.y))) 30000 : ℕ)
        else listMaxQ (els.map (·.y)) - listMinQ (els.map (·.y))) := by
      split
      · positivity
      · exact hyr
    apply detect_zones_aux_pairwise
    · intro p q hpq
      exact tileGids_disjoint hnd hw hh hpq
    · exact tilePairs_nodup _ _
    · intro p _ z hz
      cases hz
    · exact List.Pairwise.nil

/-- Witness for C3 at a concrete two-element, two-zone layout. -/
theorem C3_zone_elements_pairwise_disjoint_witness :
    List.Pairwise (fun z1 z2 => ∀ g ∈ z1.elements, g ∉ z2.elements)
      (detect_zones
        [⟨"p", 1, "IfcColumn", "p", 0, 0, 0, "GF"⟩,
         ⟨"q", 2, "IfcColumn", "q", 35000, 0, 0, "GF"⟩,
         ⟨"r", 3, "IfcColumn", "r", 70001, 0, 0, "GF"⟩] []) :=
  C3_zone_elements_pairwise_disjoint _ [] (by decide)

theorem zoneCount_pos (r s : ℚ) : 0 < zoneCount r s := by
  rw [zoneCount]
  omega

/-- Claim C9: an element sitting exactly at the maximum x (or maximum y)
over all elements is assigned to no automatically detected zone, because
the last tile's upper bound equals that maximum and the membership test is
strict there. -/
theorem C9_max_coordinate_unzoned (els : List StructuralElement) (cells : List GridCell)
    (hnd : (els.map (·.global_id)).Nodup)
    (e : StructuralElement) (he : e ∈ els)
    (hmax : e.x = listMaxQ (els.map (·.x)) ∨ e.y = listMaxQ (els.map (·.y))) :
    ∀ z ∈ detect_zones els cells, e.global_id ∉ z.elements := by
  intro z hz hgz
  have hne : els ≠ [] := List.ne_nil_of_mem he
  have hempty : ¬ els.isEmpty = true := by
    cases els with
    | nil => exact absurd rfl hne
    | cons a t => simp
  rw [detect_zones, if_neg hempty] at hz
  have hxp : 0 < zoneCount (listMaxQ (els.map (·.x)) - listMinQ (els.map (·.x))) 30000 :=
    zoneCount_pos _ _
  have hyp : 0 < zoneCount (listMaxQ (els.map (·.y)) - listMinQ (els.map (·.y))) 30000 :=
    zoneCount_pos _ _
  rcases detect_zones_aux_mem els cells _ _ _ _ _ _ z hz with h1 | ⟨p, hp, hez⟩
  · cases h1
  · rw [hez] at hgz
    obtain ⟨e₂, he₂, hg₂⟩ := List.mem_map.1 hgz
    have heq : e₂ = e :=
      List.inj_on_of_nodup_map hnd (List.mem_of_mem_filter he₂) he hg₂
    have htile := List.of_mem_filter he₂
    rw [heq] at htile
    rw [mem_tilePairs] at hp
    simp only [inTile, Bool.and_eq_true, decide_eq_true_eq] at htile
    obtain ⟨⟨⟨hx1, hx2⟩, hy1⟩, hy2⟩ := htile
    have hxne : els.map (·.x) ≠ [] := by simpa using hne
    have hyne : els.map (·.y) ≠ [] := by simpa using hne
    rcases hmax with hmx | hmy
    · set xmn := listMinQ (els.map (·.x)) with hxmn
      set xmx := listMaxQ (els.map (·.x)) with hxmx
      set nx := zoneCount (xmx - xmn) 30000 with hnx
      rw [if_pos hxp] at hx2
      have hxr : (0:ℚ) ≤ xmx - xmn := by
        have := listMinQ_le_listMaxQ hxne
        linarith
      have hcast : ((p.1 : ℚ) + 1) ≤ (nx : ℚ) := by
        have : p.1 + 1 ≤ nx := hp.1
        exact_mod_cast this
      have hwpos : (0:ℚ) ≤ (xmx - xmn) / (nx : ℚ) := by positivity
      have hstep : ((p.1 : ℚ) + 1) * ((xmx - xmn) / (nx : ℚ)) ≤
          (nx : ℚ) * ((xmx - xmn) / (nx : ℚ)) :=
        mul_le_mul_of_nonneg_right hcast hwpos
      have hnxq : (nx : ℚ) ≠ 0 := by
        have : (0:ℚ) < (nx : ℚ) := by exact_mod_cast hxp
        linarith
      have hcancel : (nx : ℚ) * ((xmx - xmn) / (nx : ℚ)) = xmx - xmn := by
        field_simp
      have : e.x < xmx := by
        calc e.x < xmn + (p.1 : ℚ) * ((xmx - xmn) / (nx : ℚ)) + (xmx - xmn) / (nx : ℚ) := hx2
          _ = xmn + ((p.1 : ℚ) + 1) * ((xmx - xmn) / (nx : ℚ)) := by ring
          _ ≤ xmn + (nx : ℚ) * ((xmx - xmn) / (nx : ℚ)) := by linarith
          _ = xmx := by rw [hcancel]; ring
      rw [hmx] at this
      exact lt_irrefl _ this
    · set ymn := listMinQ (els.map (·.y)) with hymn
      set ymx := listMaxQ (els.map (·.y)) with hymx
      set ny := zoneCount (ymx - ymn) 30000 with hny
      rw [if_pos hyp] at hy2
      have hyr : (0:ℚ) ≤ ymx - ymn := by
        have := listMinQ_le_listMaxQ hyne
        linarith
      have hcast : ((p.2 : ℚ) + 1) ≤ (ny : ℚ) := by
        have : p.2 + 1 ≤ ny := hp.2
        exact_mod_cast this
      have hwpos : (0:ℚ) ≤ (ymx - ymn) / (ny : ℚ) := by positivity
      have hstep : ((p.2 : ℚ) + 1) * ((ymx - ymn) / (ny : ℚ)) ≤
          (ny : ℚ) * ((ymx - ymn) / (ny : ℚ)) :=
        mul_le_mul_of_nonneg_right hcast hwpos
      have hnyq : (ny : ℚ) ≠ 0 := by
        have : (0:ℚ) < (ny : ℚ) := by exact_mod_cast hyp
        linarith
      have hcancel : (ny : ℚ) * ((ymx - ymn) / (ny : ℚ)) = ymx - ymn := by
        field_simp
      have : e.y < ymx := by
        calc e.y < ymn + (p.2 : ℚ) * ((ymx - ymn) / (ny : ℚ)) + (ymx - ymn) / (ny : ℚ) := hy2
          _ = ymn + ((p.2 : ℚ) + 1) * ((ymx - ymn) / (ny : ℚ)) := by ring
          _ ≤ ymn + (ny : ℚ) * ((ymx - ymn) / (ny : ℚ)) := by linarith
          _ = ymx := by rw [hcancel]; ring
      rw [hmy] at this
      exact lt_irrefl _ this

/-- Witness for C9: the element at the maximum corner of a 70 m layout is
in no detected zone. -/
theorem C9_max_coordinate_unzoned_witness :
    (detect_zones
      [⟨"p", 1, "IfcColumn", "p", 0, 0, 0, "GF"⟩,
       ⟨"s", 4, "IfcColumn", "s", 70000, 70000, 0, "GF"⟩] []).all
      (fun z => decide (("s" : String) ∉ z.elements)) = true := by
  apply List.all_eq_true.2
  intro z hz
  rw [decide_eq_true_eq]
  exact C9_max_coordinate_unzoned
    [⟨"p", 1, "IfcColumn", "p", 0, 0, 0, "GF"⟩,
     ⟨"s", 4, "IfcColumn", "s", 70000, 70000, 0, "GF"⟩] []
    (by decide) ⟨"s", 4, "IfcColumn", "s", 70000, 70000, 0, "GF"⟩ (by decide)
    (Or.inl (by decide)) z hz

/-! Claim C8: error signalling for unknown zone and stage ids. -/

/-- Service state exhibiting a known empty zone and a known stage whose
element ids resolve to nothing (both situations arise after `update_zone`
shrinks a zone, or after user-sequence generation). -/
def exStateC8 : ServiceState :=
  { grid_axes := [], grid_cells := [], elements := [],
    zones := [{ zone_id := 1, name := "Zone 1", grid_cells := [], x_range := (0, 0),
                y_range := (0, 0), elements := [], element_counts := [] }],
    stages := [{ stage_id := "1.1", zone_id := 1, element_type := "columns",
                 grid_range := "Zone 1", elements := ["7"], sequence_order := 1 }],
    levels := [], grid_detected := false }

/-- Counterexample to claim C8 as stated: the element and express-id
lookups return the same empty list for the unknown zone 99 (and unknown
stage "9.9") as for the known-but-empty zone 1 (and known stage "1.1"), so
an unknown reference is not distinguishable from an empty result there. -/
theorem C8_counterexample :
    (exStateC8.zones.find? (fun z => z.zone_id == 1)).isSome = true ∧
    exStateC8.zones.find? (fun z => z.zone_id == 99) = none ∧
    get_elements_by_zone exStateC8 1 = get_elements_by_zone exStateC8 99 ∧
    get_express_ids_by_zone exStateC8 1 = get_express_ids_by_zone exStateC8 99 ∧
    (exStateC8.stages.find? (fun s => s.stage_id == "1.1")).isSome = true ∧
    exStateC8.stages.find? (fun s => s.stage_id == "9.9") = none ∧
    get_express_ids_by_stage exStateC8 "1.1" = get_express_ids_by_stage exStateC8 "9.9" := by
  decide

/-- Claim C8 amended: only `update_zone` distinguishes an unknown
`zone_id` (it returns `None`, never a zone payload); the element and
express-id query functions return the empty list for an unknown id, the
same value a known empty zone or stage produces. -/
theorem C8_not_found_amended :
    (∀ (st : ServiceState) (zid : ℕ) (nm : Option String) (xr yr : Option (ℚ × ℚ)),
      st.zones.find? (fun z => z.zone_id == zid) = none →
        update_zone st zid nm xr yr = none) ∧
    (∀ (st : ServiceState) (zid : ℕ) (nm : Option String) (xr yr : Option (ℚ × ℚ))
        (zone : ErectionZone),
      st.zones.find? (fun z => z.zone_id == zid) = some zone →
        (update_zone st zid nm xr yr).isSome = true) ∧
    (∀ (st : ServiceState) (zid : ℕ),
      st.zones.find? (fun z => z.zone_id == zid) = none →
        get_elements_by_zone st zid = [] ∧ get_express_ids_by_zone st zid = []) ∧
    (∀ (st : ServiceState) (sid : String),
      st.stages.find? (fun s => s.stage_id == sid) = none →
        get_express_ids_by_stage st sid = []) := by
  refine ⟨?_, ?_, ?_, ?_⟩
  · intro st zid nm xr yr hfind
    rw [update_zone, hfind]
  · intro st zid nm xr yr zone hfind
    rw [update_zone, hfind]
    rfl
  · intro st zid hfind
    constructor
    · rw [get_elements_by_zone, hfind]
    · rw [get_express_ids_by_zone, hfind]
  · intro st sid hfind
    rw [get_express_ids_by_stage, hfind]

/-- Witness for the amended C8 at the concrete state. -/
theorem C8_not_found_amended_witness :
    update_zone exStateC8 99 none none none = none ∧
    (update_zone exStateC8 1 none none none).isSome = true ∧
    get_elements_by_zone exStateC8 99 = [] ∧
    get_express_ids_by_stage exStateC8 "9.9" = [] := by
  refine ⟨?_, ?_, ?_, ?_⟩
  · exact C8_not_found_amended.1 exStateC8 99 none none none (by decide)
  · exact C8_not_found_amended.2.1 exStateC8 1 none none none
      ({ zone_id := 1, name := "Zone 1", grid_cells := [], x_range := (0, 0),
         y_range := (0, 0), elements := [], element_counts := [] }) (by decide)
  · exact (C8_not_found_amended.2.2.1 exStateC8 99 (by decide)).1
  · exact C8_not_found_amended.2.2.2 exStateC8 "9.9" (by decide)

/-! Permutation facts for the stable sort. -/

theorem insertLe_perm (le : α → α → Bool) (a : α) :
    ∀ (l : List α), List.Perm (insertLe le a l) (a :: l)
  | [] => List.Perm.refl _
  | b :: l => by
    rw [insertLe]
    split
    · exact List.Perm.refl _
    · exact List.Perm.trans (List.Perm.cons b (insertLe_perm le a l))
        (List.Perm.swap a b l)

theorem sortByKey_perm (le : α → α → Bool) :
    ∀ (l : List α), List.Perm (sortByKey le l) l
  | [] => List.Perm.refl _
  | a :: l =>
    List.Perm.trans (insertLe_perm le a (sortByKey le l))
      (List.Perm.cons a (sortByKey_perm le l))

theorem sortByKey_mem {le : α → α → Bool} {l : List α} {a : α} :
    a ∈ sortByKey le l ↔ a ∈ l :=
  (sortByKey_perm le l).mem_iff

/-! Lemmas for the query-strategy selection. -/

theorem one_lt_dedup_length_iff {l : List ℚ} :
    1 < l.dedup.length ↔ ∃ a ∈ l, ∃ b ∈ l, a ≠ b := by
  constructor
  · intro h
    match hd : l.dedup with
    | [] => rw [hd] at h; simp at h
    | [x] => rw [hd] at h; simp at h
    | x :: y :: t =>
      have hx : x ∈ l := List.mem_dedup.1 (hd ▸ List.mem_cons_self x (y :: t))
      have hy : y ∈ l := List.mem_dedup.1 (hd ▸ List.mem_cons_of_mem x (List.mem_cons_self y t))
      have hnd := l.nodup_dedup
      rw [hd, List.nodup_cons] at hnd
      exact ⟨x, hx, y, hy, fun hxy => hnd.1 (hxy ▸ List.mem_cons_self y t)⟩
  · rintro ⟨a, ha, b, hb, hne⟩
    by_contra h
    push_neg at h
    have had : a ∈ l.dedup := List.mem_dedup.2 ha
    have hbd : b ∈ l.dedup := List.mem_dedup.2 hb
    match hd : l.dedup with
    | [] => rw [hd] at had; cases had
    | [x] =>
      rw [hd] at had hbd
      exact hne ((List.mem_singleton.1 had).trans (List.mem_singleton.1 hbd).symm)
    | x :: y :: t =>
      rw [hd] at h
      simp at h

theorem filter_or_length_le (p q : α → Bool) :
    ∀ (l : List α), (l.filter (fun a => p a || q a)).length ≤
      (l.filter p).length + (l.filter q).length
  | [] => Nat.le_refl 0
  | a :: l => by
    have ih := filter_or_length_le p q l
    simp only [List.filter_cons]
    cases hp : p a <;> cases hq : q a <;> simp [hp, hq] <;> omega

theorem filter_tag_length_le_one {axes : List GridAxis}
    (h : (axes.map GridAxis.tag).Nodup) (s : String) :
    (axes.filter (fun a => a.tag == s)).length ≤ 1 := by
  match hf : axes.filter (fun a => a.tag == s) with
  | [] => simp [hf]
  | [x] => simp [hf]
  | x :: y :: t =>
    exfalso
    have hsub : ((axes.filter (fun a => a.tag == s)).map GridAxis.tag).Sublist
        (axes.map GridAxis.tag) := (List.filter_sublist axes).map GridAxis.tag
    have hnd := hsub.nodup h
    rw [hf] at hnd
    have hx : x.tag = s := by
      have := List.of_mem_filter (hf ▸ List.mem_cons_self x (y :: t))
      simpa using this
    have hy : y.tag = s := by
      have := List.of_mem_filter (hf ▸ List.mem_cons_of_mem x (List.mem_cons_self y t))
      simpa using this
    rw [List.map_cons, List.map_cons, List.nodup_cons] at hnd
    exact hnd.1 (by rw [hx, ← hy]; exact List.mem_cons_self y.tag _)

theorem two_le_length_of_mem_ne {l : List α} {a b : α}
    (ha : a ∈ l) (hb : b ∈ l) (h : a ≠ b) : 2 ≤ l.length := by
  match l with
  | [] => cases ha
  | [c] =>
    rw [List.mem_singleton] at ha hb
    exact absurd (ha.trans hb.symm) h
  | c :: d :: t => simp

theorem span_zero_of_length_le_one {l : List ℚ} (h : l.length ≤ 1) :
    listMaxQ l - listMinQ l = 0 := by
  match l with
  | [] => simp [listMaxQ, listMinQ]
  | [x] => simp [listMaxQ, listMinQ]
  | x :: y :: t => simp at h

theorem ratAbs_of_nonneg {q : ℚ} (h : 0 ≤ q) : ratAbs q = q := by
  rw [ratAbs, if_neg (by linarith)]

theorem resolved_length_two_iff {axes : List GridAxis} {s t : String}
    (hnd : (axes.map GridAxis.tag).Nodup) :
    2 ≤ (resolvedPositions axes s t).length ↔
      ((∃ a ∈ axes, a.tag = s) ∧ (∃ a ∈ axes, a.tag = t) ∧ s ≠ t) := by
  constructor
  · intro h
    have hst : s ≠ t := by
      intro hc
      subst hc
      have heq : (axes.filter (fun a => a.tag == s || a.tag == s)) =
          axes.filter (fun a => a.tag == s) := by
        apply List.filter_congr
        intro a _
        rw [Bool.or_self]
      rw [resolvedPositions, heq, List.length_map] at h
      have := filter_tag_length_le_one hnd s
      omega
    have hs : ∃ a ∈ axes, a.tag = s := by
      by_contra hc
      push_neg at hc
      have heq : (axes.filter (fun a => a.tag == s || a.tag == t)) =
          axes.filter (fun a => a.tag == t) := by
        apply List.filter_congr
        intro a ha
        have hbe : (a.tag == s) = false := beq_eq_false_iff_ne.mpr (hc a ha)
        rw [hbe, Bool.false_or]
      rw [resolvedPositions, heq, List.length_map] at h
      have := filter_tag_length_le_one hnd t
      omega
    have ht : ∃ a ∈ axes, a.tag = t := by
      by_contra hc
      push_neg at hc
      have heq : (axes.filter (fun a => a.tag == s || a.tag == t)) =
          axes.filter (fun a => a.tag == s) := by
        apply List.filter_congr
        intro a ha
        have hbe : (a.tag == t) = false := beq_eq_false_iff_ne.mpr (hc a ha)
        rw [hbe, Bool.or_false]
      rw [resolvedPositions, heq, List.length_map] at h
      have := filter_tag_length_le_one hnd s
      omega
    exact ⟨hs, ht, hst⟩
  · rintro ⟨⟨a, ha, has⟩, ⟨b, hb, hbt⟩, hst⟩
    have hane : a ≠ b := fun hc => hst (by rw [← has, ← hbt, hc])
    have haf : a ∈ axes.filter (fun x => x.tag == s || x.tag == t) := by
      rw [List.mem_filter]
      exact ⟨ha, by simp [has]⟩
    have hbf : b ∈ axes.filter (fun x => x.tag == s || x.tag == t) := by
      rw [List.mem_filter]
      exact ⟨hb, by simp [hbt]⟩
    rw [resolvedPositions, List.length_map]
    exact two_le_length_of_mem_ne haf hbf hane

/-- Predicate modelled from the spec wording of the strategy selection:
both families have more than one distinct axis position, both requested
endpoints of both families resolve to axis positions, and the resolved
span is at least 1000 mm in both directions. -/
def positionStrategyPredicate (st : ServiceState) (v_start v_end u_start u_end : String) : Prop :=
  (∃ a ∈ sortedVAxes st.grid_axes, ∃ b ∈ sortedVAxes st.grid_axes, a.position ≠ b.position) ∧
  (∃ a ∈ sortedUAxes st.grid_axes, ∃ b ∈ sortedUAxes st.grid_axes, a.position ≠ b.position) ∧
  (∃ a ∈ sortedUAxes st.grid_axes, a.tag = u_start) ∧
  (∃ a ∈ sortedUAxes st.grid_axes, a.tag = u_end) ∧
  (∃ a ∈ sortedVAxes st.grid_axes, a.tag = v_start) ∧
  (∃ a ∈ sortedVAxes st.grid_axes, a.tag = v_end) ∧
  1000 ≤ listMaxQ (resolvedPositions (sortedUAxes st.grid_axes) u_start u_end) -
    listMinQ (resolvedPositions (sortedUAxes st.grid_axes) u_start u_end) ∧
  1000 ≤ listMaxQ (resolvedPositions (sortedVAxes st.grid_axes) v_start v_end) -
    listMinQ (resolvedPositions (sortedVAxes st.grid_axes) v_start v_end)

theorem exists_pos_ne_iff {axes : List GridAxis} :
    (∃ x ∈ axes.map (fun a => a.position), ∃ y ∈ axes.map (fun a => a.position), x ≠ y) ↔
    (∃ a ∈ axes, ∃ b ∈ axes, a.position ≠ b.position) := by
  constructor
  · rintro ⟨x, hx, y, hy, hne⟩
    obtain ⟨a, ha, hax⟩ := List.mem_map.1 hx
    obtain ⟨b, hb, hby⟩ := List.mem_map.1 hy
    exact ⟨a, ha, b, hb, by rw [hax, hby]; exact hne⟩
  · rintro ⟨a, ha, b, hb, hne⟩
    exact ⟨a.position, List.mem_map_of_mem _ ha, b.position, List.mem_map_of_mem _ hb, hne⟩

/-- Claim C4: the position-based strategy is used exactly when both axis
families have more than one distinct position, both requested endpoints of
both families resolve to axis positions, and the resolved span is at
least 1000 mm in both directions; otherwise the proportional fallback is
used.  (Tag uniqueness per family is the grid-axis dict invariant.) -/
theorem C4_strategy_selection (st : ServiceState) (v_start v_end u_start u_end : String)
    (etype : Option String)
    (hu : ((st.grid_axes.filter (fun a => a.direction == "U")).map GridAxis.tag).Nodup)
    (hv : ((st.grid_axes.filter (fun a => a.direction == "V")).map GridAxis.tag).Nodup) :
    (positionStrategyPredicate st v_start v_end u_start u_end →
      get_express_ids_by_grid_area st v_start v_end u_start u_end etype =
        positionFilteredIds st.elements
          (listMinQ (resolvedPositions (sortedUAxes st.grid_axes) u_start u_end))
          (listMaxQ (resolvedPositions (sortedUAxes st.grid_axes) u_start u_end))
          (listMinQ (resolvedPositions (sortedVAxes st.grid_axes) v_start v_end))
          (listMaxQ (resolvedPositions (sortedVAxes st.grid_axes) v_start v_end)) etype) ∧
    (¬ positionStrategyPredicate st v_start v_end u_start u_end →
      get_express_ids_by_grid_area st v_start v_end u_start u_end etype =
        get_express_ids_by_proportional_grid st.elements v_start v_end u_start u_end
          (sortedVAxes st.grid_axes) (sortedUAxes st.grid_axes) etype) := by
  have huN : ((sortedUAxes st.grid_axes).map GridAxis.tag).Nodup := by
    have hperm := (sortByKey_perm (fun a b =>
        pairLeNat (ordFirstUpper a.tag, a.position) (ordFirstUpper b.tag, b.position))
      (st.grid_axes.filter (fun a => a.direction == "U"))).map GridAxis.tag
    exact hperm.nodup_iff.mpr hu
  have hvN : ((sortedVAxes st.grid_axes).map GridAxis.tag).Nodup := by
    have hperm := (sortByKey_perm (fun a b =>
        pairLeNat (tagNum a.tag, a.position) (tagNum b.tag, b.position))
      (st.grid_axes.filter (fun a => a.direction == "V"))).map GridAxis.tag
    exact hperm.nodup_iff.mpr hv
  constructor
  · intro hpred
    obtain ⟨hp1, hp2, hp3, hp4, hp5, hp6, hp7, hp8⟩ := hpred
    have hlenU : 2 ≤ (resolvedPositions (sortedUAxes st.grid_axes) u_start u_end).length := by
      by_contra hc
      push_neg at hc
      have h0 := span_zero_of_length_le_one
        (by omega : (resolvedPositions (sortedUAxes st.grid_axes) u_start u_end).length ≤ 1)
      linarith
    have hlenV : 2 ≤ (resolvedPositions (sortedVAxes st.grid_axes) v_start v_end).length := by
      by_contra hc
      push_neg at hc
      have h0 := span_zero_of_length_le_one
        (by omega : (resolvedPositions (sortedVAxes st.grid_axes) v_start v_end).length ≤ 1)
      linarith
    have hUne : resolvedPositions (sortedUAxes st.grid_axes) u_start u_end ≠ [] := by
      intro hcontra
      rw [hcontra] at hlenU
      simp at hlenU
    have hVne : resolvedPositions (sortedVAxes st.grid_axes) v_start v_end ≠ [] := by
      intro hcontra
      rw [hcontra] at hlenV
      simp at hlenV
    have hUnn := listMinQ_le_listMaxQ hUne
    have hVnn := listMinQ_le_listMaxQ hVne
    simp only [get_express_ids_by_grid_area]
    rw [if_pos (And.intro (one_lt_dedup_length_iff.2 (exists_pos_ne_iff.2 hp1))
      (one_lt_dedup_length_iff.2 (exists_pos_ne_iff.2 hp2)))]
    simp only [get_express_ids_by_axis_positions]
    rw [if_neg (by omega : ¬ ((resolvedPositions (sortedUAxes st.grid_axes) u_start u_end).length < 2 ∨
      (resolvedPositions (sortedVAxes st.grid_axes) v_start v_end).length < 2))]
    rw [ratAbs_of_nonneg (by linarith), ratAbs_of_nonneg (by linarith)]
    rw [if_neg (by push_neg; constructor <;> linarith)]
  · intro hnpred
    simp only [get_express_ids_by_grid_area]
    by_cases hvalid : (1 < ((sortedVAxes st.grid_axes).map (fun a => a.position)).dedup.length ∧
        1 < ((sortedUAxes st.grid_axes).map (fun a => a.position)).dedup.length)
    · rw [if_pos hvalid]
      simp only [get_express_ids_by_axis_positions]
      by_cases hlen : ((resolvedPositions (sortedUAxes st.grid_axes) u_start u_end).length < 2 ∨
          (resolvedPositions (sortedVAxes st.grid_axes) v_start v_end).length < 2)
      · rw [if_pos hlen]
      · rw [if_neg hlen]
        push_neg at hlen
        have hUne : resolvedPositions (sortedUAxes st.grid_axes) u_start u_end ≠ [] := by
          intro hcontra
          rw [hcontra] at hlen
          simp at hlen
        have hVne : resolvedPositions (sortedVAxes st.grid_axes) v_start v_end ≠ [] := by
          intro hcontra
          rw [hcontra] at hlen
          simp at hlen
        have hUnn := listMinQ_le_listMaxQ hUne
        have hVnn := listMinQ_le_listMaxQ hVne
        rw [ratAbs_of_nonneg (by linarith), ratAbs_of_nonneg (by linarith)]
        by_cases hspan : (listMaxQ (resolvedPositions (sortedUAxes st.grid_axes) u_start u_end) -
            listMinQ (resolvedPositions (sortedUAxes st.grid_axes) u_start u_end) < 1000 ∨
            listMaxQ (resolvedPositions (sortedVAxes st.grid_axes) v_start v_end) -
            listMinQ (resolvedPositions (sortedVAxes st.grid_axes) v_start v_end) < 1000)
        · rw [if_pos hspan]
        · exfalso
          apply hnpred
          push_neg at hspan
          obtain ⟨hresU1, hresU2, _⟩ :=
            (resolved_length_two_iff (s := u_start) (t := u_end) huN).1 (by omega)
          obtain ⟨hresV1, hresV2, _⟩ :=
            (resolved_length_two_iff (s := v_start) (t := v_end) hvN).1 (by omega)
          exact ⟨exists_pos_ne_iff.1 (one_lt_dedup_length_iff.1 hvalid.1),
            exists_pos_ne_iff.1 (one_lt_dedup_length_iff.1 hvalid.2),
            hresU1, hresU2, hresV1, hresV2, hspan.1, hspan.2⟩
    · rw [if_neg hvalid]

/-- Witness for C4 at a concrete 2 × 2 grid where the predicate holds. -/
theorem C4_strategy_selection_witness :
    get_express_ids_by_grid_area
      ({ grid_axes := [⟨"A", "U", 0⟩, ⟨"B", "U", 10000⟩, ⟨"1", "V", 0⟩, ⟨"2", "V", 10000⟩],
         grid_cells := [], elements := [⟨"e1", 101, "IfcColumn", "e1", 5000, 5000, 0, "GF"⟩],
         zones := [], stages := [], levels := [], grid_detected := true } : ServiceState)
      "1" "2" "A" "B" none =
      positionFilteredIds [⟨"e1", 101, "IfcColumn", "e1", 5000, 5000, 0, "GF"⟩]
        (listMinQ (resolvedPositions (sortedUAxes
          [⟨"A", "U", 0⟩, ⟨"B", "U", 10000⟩, ⟨"1", "V", 0⟩, ⟨"2", "V", 10000⟩]) "A" "B"))
        (listMaxQ (resolvedPositions (sortedUAxes
          [⟨"A", "U", 0⟩, ⟨"B", "U", 10000⟩, ⟨"1", "V", 0⟩, ⟨"2", "V", 10000⟩]) "A" "B"))
        (listMinQ (resolvedPositions (sortedVAxes
          [⟨"A", "U", 0⟩, ⟨"B", "U", 10000⟩, ⟨"1", "V", 0⟩, ⟨"2", "V", 10000⟩]) "1" "2"))
        (listMaxQ (resolvedPositions (sortedVAxes
          [⟨"A", "U", 0⟩, ⟨"B", "U", 10000⟩, ⟨"1", "V", 0⟩, ⟨"2", "V", 10000⟩]) "1" "2"))
        none := by
  exact (C4_strategy_selection _ "1" "2" "A" "B" none (by decide) (by decide)).1
    (by unfold positionStrategyPredicate; decide)

/-! Claim C6: the full-range round trip. -/

/-- Service state refuting the round trip: the element at x = 20000 lies
more than 500 mm outside the resolved axis span [0, 10000]. -/
def exStateC6 : ServiceState :=
  { grid_axes := [⟨"A", "U", 0⟩, ⟨"B", "U", 10000⟩, ⟨"1", "V", 0⟩, ⟨"2", "V", 10000⟩],
    grid_cells := [],
    elements := [⟨"e1", 101, "IfcColumn", "e1", 5000, 5000, 0, "GF"⟩,
                 ⟨"e2", 202, "IfcColumn", "e2", 20000, 5000, 0, "GF"⟩],
    zones := [], stages := [], levels := [("GF", 0)], grid_detected := true }

/-- Counterexample to claim C6 as stated: querying the full primary range
(A to B) and full secondary range (1 to 2) returns only express id 101 —
element 202 at (20000, 5000) is not on a tolerance boundary (it lies
9500 mm beyond the expanded span) yet is missing from the result. -/
theorem C6_counterexample :
    get_express_ids_by_grid_area exStateC6 "1" "2" "A" "B" none = [101] ∧
    get_all_express_ids exStateC6 = [101, 202] := by
  decide

theorem getLastQ_mem : ∀ (l : List String), l ≠ [] → l.getLast?.getD "" ∈ l
  | [a], _ => by simp
  | a :: b :: t, _ => by
    rw [List.getLast?_cons_cons]
    exact List.mem_cons_of_mem a (getLastQ_mem (b :: t) (by simp))

theorem headQ_findIdx_zero {l : List String} (hne : l ≠ []) :
    l.findIdx (fun s => s == l.headD "") = 0 := by
  cases l with
  | nil => exact absurd rfl hne
  | cons a t => simp [List.findIdx_cons]

theorem getLastQ_findIdx : ∀ (l : List String), l.Nodup → l ≠ [] →
    l.findIdx (fun s => s == l.getLast?.getD "") = l.length - 1
  | [a], _, _ => by simp [List.findIdx_cons]
  | a :: b :: t, hnd, _ => by
    have ih := getLastQ_findIdx (b :: t) (List.Nodup.of_cons hnd) (by simp)
    have hmem : (b :: t).getLast?.getD "" ∈ b :: t := getLastQ_mem (b :: t) (by simp)
    have hna : a ∉ b :: t := (List.nodup_cons.1 hnd).1
    have ha : (a == (b :: t).getLast?.getD "") = false := by
      rw [beq_eq_false_iff_ne]
      intro hcontra
      rw [hcontra] at hna
      exact hna hmem
    rw [List.getLast?_cons_cons, List.findIdx_cons, ha]
    simp only [cond_false]
    rw [ih]
    simp

theorem mem_headQ : ∀ (l : List String), l ≠ [] → l.headD "" ∈ l
  | a :: t, _ => by simp

/-- Claim C6 amended: when the proportional strategy computes the query
(the claim's sources at lines 1223-1294), the full-tag-range query with no
category filter returns every element's express id; under the
position-based path only elements within the resolved span expanded by
500 mm are returned, so elements farther outside the axis span are
missed (see the counterexample). -/
theorem C6_full_range_amended (els : List StructuralElement)
    (v_axes u_axes : List GridAxis)
    (huN : (proportionalUTags u_axes).Nodup) (hvN : (proportionalVTags v_axes).Nodup)
    (hune : proportionalUTags u_axes ≠ []) (hvne : proportionalVTags v_axes ≠ []) :
    get_express_ids_by_proportional_grid els
      ((proportionalVTags v_axes).headD "") ((proportionalVTags v_axes).getLast?.getD "")
      ((proportionalUTags u_axes).headD "") ((proportionalUTags u_axes).getLast?.getD "")
      v_axes u_axes none =
      els.map (·.express_id) := by
  by_cases hels : els.isEmpty
  · have : els = [] := by
      cases els with
      | nil => rfl
      | cons a t => simp at hels
    rw [this]
    simp [get_express_ids_by_proportional_grid]
  · simp only [get_express_ids_by_proportional_grid, if_neg hels]
    have hcontU : (proportionalUTags u_axes).contains ((proportionalUTags u_axes).headD "") = true := by
      rw [List.contains_eq_any_beq]
      rw [List.any_eq_true]
      exact ⟨_, mem_headQ _ hune, by simp⟩
    have hcontU2 : (proportionalUTags u_axes).contains
        ((proportionalUTags u_axes).getLast?.getD "") = true := by
      rw [List.contains_eq_any_beq]
      rw [List.any_eq_true]
      exact ⟨_, getLastQ_mem _ hune, by simp⟩
    have hcontV : (proportionalVTags v_axes).contains ((proportionalVTags v_axes).headD "") = true := by
      rw [List.contains_eq_any_beq]
      rw [List.any_eq_true]
      exact ⟨_, mem_headQ _ hvne, by simp⟩
    have hcontV2 : (proportionalVTags v_axes).contains
        ((proportionalVTags v_axes).getLast?.getD "") = true := by
      rw [List.contains_eq_any_beq]
      rw [List.any_eq_true]
      exact ⟨_, getLastQ_mem _ hvne, by simp⟩
    have hidxU1 : endpointIdx (proportionalUTags u_axes) ((proportionalUTags u_axes).headD "") 0 = 0 := by
      rw [endpointIdx, if_pos hcontU]
      exact headQ_findIdx_zero hune
    have hidxU2 : endpointIdx (proportionalUTags u_axes)
        ((proportionalUTags u_axes).getLast?.getD "") ((proportionalUTags u_axes).length - 1) =
        (proportionalUTags u_axes).length - 1 := by
      rw [endpointIdx, if_pos hcontU2]
      exact getLastQ_findIdx _ huN hune
    have hidxV1 : endpointIdx (proportionalVTags v_axes) ((proportionalVTags v_axes).headD "") 0 = 0 := by
      rw [endpointIdx, if_pos hcontV]
      exact headQ_findIdx_zero hvne
    have hidxV2 : endpointIdx (proportionalVTags v_axes)
        ((proportionalVTags v_axes).getLast?.getD "") ((proportionalVTags v_axes).length - 1) =
        (proportionalVTags v_axes).length - 1 := by
      rw [endpointIdx, if_pos hcontV2]
      exact getLastQ_findIdx _ hvN hvne
    rw [if_neg (by
      rw [not_or]
      constructor
      · intro hcontra
        exact hune (by simpa [List.isEmpty_iff] using hcontra)
      · intro hcontra
        exact hvne (by simpa [List.isEmpty_iff] using hcontra))]
    rw [hidxU1, hidxU2, hidxV1, hidxV2]
    have hNu : 0 < (proportionalUTags u_axes).length := List.length_pos.2 hune
    have hNv : 0 < (proportionalVTags v_axes).length := List.length_pos.2 hvne
    have hminU : min 0 ((proportionalUTags u_axes).length - 1) = 0 := Nat.zero_min _
    have hmaxU : max 0 ((proportionalUTags u_axes).length - 1) =
        (proportionalUTags u_axes).length - 1 := Nat.zero_max _
    have hminV : min 0 ((proportionalVTags v_axes).length - 1) = 0 := Nat.zero_min _
    have hmaxV : max 0 ((proportionalVTags v_axes).length - 1) =
        (proportionalVTags v_axes).length - 1 := Nat.zero_max _
    rw [hminU, hmaxU, hminV, hmaxV]
    have hne : els ≠ [] := by
      cases els with
      | nil => simp at hels
      | cons a t => exact List.cons_ne_nil a t
    have hxne : els.map (·.x) ≠ [] := by simpa using hne
    have hyne : els.map (·.y) ≠ [] := by simpa using hne
    have hgen : ∀ (p : StructuralElement → Bool), (∀ e ∈ els, p e = true) →
        (els.filter p).map (·.express_id) = els.map (·.express_id) := by
      intro p hp
      rw [List.filter_eq_self.2 hp]
    apply hgen
    intro e he
    have hex1 : listMinQ (els.map (·.x)) ≤ e.x := listMinQ_le (List.mem_map_of_mem _ he)
    have hex2 : e.x ≤ listMaxQ (els.map (·.x)) := le_listMaxQ (List.mem_map_of_mem _ he)
    have hey1 : listMinQ (els.map (·.y)) ≤ e.y := listMinQ_le (List.mem_map_of_mem _ he)
    have hey2 : e.y ≤ listMaxQ (els.map (·.y)) := le_listMaxQ (List.mem_map_of_mem _ he)
    have hNuQ : (0:ℚ) < ((proportionalUTags u_axes).length : ℚ) := by exact_mod_cast hNu
    have hNvQ : (0:ℚ) < ((proportionalVTags v_axes).length : ℚ) := by exact_mod_cast hNv
    have hcastU : ((((proportionalUTags u_axes).length - 1 : ℕ) : ℚ) + 1) =
        ((proportionalUTags u_axes).length : ℚ) := by
      push_cast [Nat.cast_sub hNu]
      ring
    have hcastV : ((((proportionalVTags v_axes).length - 1 : ℕ) : ℚ) + 1) =
        ((proportionalVTags v_axes).length : ℚ) := by
      push_cast [Nat.cast_sub hNv]
      ring
    have hdivU : ((proportionalUTags u_axes).length : ℚ) /
        ((proportionalUTags u_axes).length : ℚ) = 1 := div_self (by linarith)
    have hdivV : ((proportionalVTags v_axes).length : ℚ) /
        ((proportionalVTags v_axes).length : ℚ) = 1 := div_self (by linarith)
    simp only [Bool.and_eq_true, decide_eq_true_eq, hcastU, hcastV, hdivU, one_mul,
      typeOk, typeFilterActive, Nat.cast_zero, zero_div, zero_mul, hdivV]
    refine ⟨⟨⟨⟨?_, ?_⟩, ?_⟩, ?_⟩, by simp⟩
    · split
      · rename_i hlt
        have hq : (0:ℚ) ≤ (listMaxQ (els.map (·.x)) - listMinQ (els.map (·.x))) /
            ((proportionalUTags u_axes).length : ℚ) / 2 := by
          have hp0 : (0:ℚ) < listMaxQ (els.map (·.x)) - listMinQ (els.map (·.x)) := by linarith
          positivity
        linarith
      · have hq : (0:ℚ) ≤ (1:ℚ) / ((proportionalUTags u_axes).length : ℚ) / 2 := by positivity
        linarith
    · split
      · rename_i hlt
        have hq : (0:ℚ) ≤ (listMaxQ (els.map (·.x)) - listMinQ (els.map (·.x))) /
            ((proportionalUTags u_axes).length : ℚ) / 2 := by
          have hp0 : (0:ℚ) < listMaxQ (els.map (·.x)) - listMinQ (els.map (·.x)) := by linarith
          positivity
        linarith
      · rename_i hnlt
        push_neg at hnlt
        have hq : (0:ℚ) ≤ (1:ℚ) / ((proportionalUTags u_axes).length : ℚ) / 2 := by positivity
        linarith
    · split
      · rename_i hlt
        have hq : (0:ℚ) ≤ (listMaxQ (els.map (·.y)) - listMinQ (els.map (·.y))) /
            ((proportionalVTags v_axes).length : ℚ) / 2 := by
          have hp0 : (0:ℚ) < listMaxQ (els.map (·.y)) - listMinQ (els.map (·.y)) := by linarith
          positivity
        linarith
      · have hq : (0:ℚ) ≤ (1:ℚ) / ((proportionalVTags v_axes).length : ℚ) / 2 := by positivity
        linarith
    · split
      · rename_i hlt
        have hq : (0:ℚ) ≤ (listMaxQ (els.map (·.y)) - listMinQ (els.map (·.y))) /
            ((proportionalVTags v_axes).length : ℚ) / 2 := by
          have hp0 : (0:ℚ) < listMaxQ (els.map (·.y)) - listMinQ (els.map (·.y)) := by linarith
          positivity
        linarith
      · rename_i hnlt
        push_neg at hnlt
        have hq : (0:ℚ) ≤ (1:ℚ) / ((proportionalVTags v_axes).length : ℚ) / 2 := by positivity
        linarith

/-- Witness for the amended C6: a degenerate grid (all axis positions 0)
routed through the proportional strategy returns every element. -/
theorem C6_full_range_amended_witness :
    get_express_ids_by_proportional_grid
      [⟨"e1", 101, "IfcColumn", "e1", 5000, 5000, 0, "GF"⟩,
       ⟨"e2", 202, "IfcColumn", "e2", 20000, 5000, 0, "GF"⟩]
      ((proportionalVTags [⟨"1", "V", 0⟩, ⟨"2", "V", 0⟩]).headD "")
      ((proportionalVTags [⟨"1", "V", 0⟩, ⟨"2", "V", 0⟩]).getLast?.getD "")
      ((proportionalUTags [⟨"A", "U", 0⟩, ⟨"B", "U", 0⟩]).headD "")
      ((proportionalUTags [⟨"A", "U", 0⟩, ⟨"B", "U", 0⟩]).getLast?.getD "")
      [⟨"1", "V", 0⟩, ⟨"2", "V", 0⟩] [⟨"A", "U", 0⟩, ⟨"B", "U", 0⟩] none =
      [101, 202] := by
  rw [C6_full_range_amended _ _ _ (by decide) (by decide) (by decide) (by decide)]
  decide

/-! Lemmas about zone replacement and stage regeneration. -/

theorem find_replace {zs : List ErectionZone} {zid : ℕ} {zone : ErectionZone}
    (h : zs.find? (fun z => z.zone_id == zid) = some zone)
    (w : ErectionZone) (hw : w.zone_id = zid) :
    (zs.map (fun z => if z.zone_id == zid then w else z)).find?
      (fun z => z.zone_id == zid) = some w := by
  induction zs with
  | nil => simp at h
  | cons z0 t ih =>
    by_cases h0 : (z0.zone_id == zid) = true
    · rw [List.map_cons, if_pos h0, List.find?_cons]
      have hwb : (w.zone_id == zid) = true := by simp [hw]
      rw [hwb]
    · have hb : (z0.zone_id == zid) = false := eq_false_of_ne_true h0
      have ht : t.find? (fun z => z.zone_id == zid) = some zone := by
        rw [List.find?_cons, hb] at h
        exact h
      rw [List.map_cons, if_neg h0, List.find?_cons, hb]
      exact ih ht

theorem zone_unique_of_nodup {zs : List ErectionZone} {zid : ℕ} {zone z : ErectionZone}
    (hnd : (zs.map (fun z => z.zone_id)).Nodup)
    (h : zs.find? (fun z => z.zone_id == zid) = some zone)
    (hz : z ∈ zs) (hid : z.zone_id = zid) : z = zone := by
  have hzonem : zone ∈ zs := List.mem_of_find?_eq_some h
  have hzoneid : zone.zone_id = zid := by
    have := List.find?_some h
    simpa using this
  exact List.inj_on_of_nodup_map hnd hz hzonem (by rw [hid, hzoneid])

theorem foldl_stage_extends {β : Type} (f : List ErectionStage → β → List ErectionStage)
    (P : ErectionStage → Prop)
    (hf : ∀ acc b, ∃ t, f acc b = acc ++ t ∧ ∀ s ∈ t, P s) :
    ∀ (l : List β) (acc : List ErectionStage),
      ∃ t, l.foldl f acc = acc ++ t ∧ ∀ s ∈ t, P s
  | [], acc => ⟨[], by simp⟩
  | b :: l, acc => by
    obtain ⟨t1, ht1, hp1⟩ := hf acc b
    obtain ⟨t2, ht2, hp2⟩ := foldl_stage_extends f P hf l (f acc b)
    refine ⟨t1 ++ t2, ?_, ?_⟩
    · rw [List.foldl_cons, ht2, ht1, List.append_assoc]
    · intro s hs
      rcases List.mem_append.1 hs with h1 | h2
      · exact hp1 s h1
      · exact hp2 s h2

theorem emitCategoryRegen_extends (els : List StructuralElement) (zone : ErectionZone)
    (lv : String) (acc : List ErectionStage) (etype : String) :
    ∃ t, emitCategoryRegen els zone lv acc etype = acc ++ t ∧
      ∀ s ∈ t, s.zone_id = zone.zone_id := by
  simp only [emitCategoryRegen]
  by_cases hS : (stageElementsFor els (levelElements els zone lv) etype).isEmpty
  · exact ⟨[], by rw [if_pos hS]; simp, by simp⟩
  · refine ⟨_, by rw [if_neg hS], ?_⟩
    intro s hs
    rw [List.mem_singleton.1 hs]

theorem emitLevelPassRegen_extends (els : List StructuralElement) (zone : ErectionZone)
    (cats : List String) (acc : List ErectionStage) (lv : String × ℚ) :
    ∃ t, emitLevelPassRegen els zone cats acc lv = acc ++ t ∧
      ∀ s ∈ t, s.zone_id = zone.zone_id := by
  simp only [emitLevelPassRegen]
  by_cases hL : (levelElements els zone lv.1).isEmpty
  · exact ⟨[], by rw [if_pos hL]; simp, by simp⟩
  · rw [if_neg hL]
    exact foldl_stage_extends _ _ (emitCategoryRegen_extends els zone lv.1) cats acc

theorem renumAux_map_seq : ∀ (n : ℕ) (l : List ErectionStage),
    (renumAux n l).map (fun s => s.sequence_order) = List.range' n l.length
  | _, [] => rfl
  | n, s :: l => by
    rw [renumAux, List.map_cons, renumAux_map_seq (n + 1) l]
    rfl

theorem renumAux_length : ∀ (n : ℕ) (l : List ErectionStage),
    (renumAux n l).length = l.length
  | _, [] => rfl
  | n, s :: l => by
    rw [renumAux, List.length_cons, List.length_cons, renumAux_length (n + 1) l]

theorem renumberStages_length (stages : List ErectionStage) :
    (renumberStages stages).length = stages.length := by
  rw [renumberStages, renumAux_length, (sortByKey_perm stageKeyLe stages).length_eq]

theorem renumberStages_map_seq (stages : List ErectionStage) :
    (renumberStages stages).map (fun s => s.sequence_order) =
      List.range' 1 stages.length := by
  rw [renumberStages, renumAux_map_seq]
  rw [(sortByKey_perm stageKeyLe stages).length_eq]

theorem update_zone_rename_effects (st : ServiceState) (zid : ℕ) (n : String)
    (zone : ErectionZone)
    (hfind : st.zones.find? (fun z => z.zone_id == zid) = some zone)
    (hnd : (st.zones.map (fun z => z.zone_id)).Nodup) :
    (∃ st2, update_zone st zid (some n) none none = some st2 ∧
      st2.zones.map (fun z => (z.zone_id, z.elements)) =
        st.zones.map (fun z => (z.zone_id, z.elements)) ∧
      (∃ regen, (∀ s ∈ regen, s.zone_id = zid) ∧
        st2.stages = renumberStages
          ((st.stages.filter (fun s => !(s.zone_id == zid))) ++ regen)) ∧
      st2.stages.map (fun s => s.sequence_order) = List.range' 1 st2.stages.length) := by
  have hzid : zone.zone_id = zid := by
    have := List.find?_some hfind
    simpa using this
  set zone1 : ErectionZone := if (n == "") = true then zone else { zone with name := n } with hz1
  have hz1id : zone1.zone_id = zid := by
    rw [hz1]
    split <;> simp [hzid]
  have hz1el : zone1.elements = zone.elements := by
    rw [hz1]
    split <;> simp
  have hupd : update_zone st zid (some n) none none =
      some (regenerate_zone_stages
        { st with zones := st.zones.map (fun z => if z.zone_id == zid then zone1 else z) } zid) := by
    rw [update_zone, hfind]
    simp only [Option.isSome_none, Bool.or_self, if_neg]
    rfl
  set st1 : ServiceState :=
    { st with zones := st.zones.map (fun z => if z.zone_id == zid then zone1 else z) } with hst1
  have hfind1 : st1.zones.find? (fun z => z.zone_id == zid) = some zone1 :=
    find_replace hfind zone1 hz1id
  set zone2 : ErectionZone := { zone1 with
    element_counts := countsByCategory (zone1.elements.filterMap (findElem st1.elements)) } with hz2
  have hz2id : zone2.zone_id = zid := hz1id
  have hregen : regenerate_zone_stages st1 zid =
      { st1 with
        zones := st1.zones.map (fun z => if z.zone_id == zid then zone2 else z)
        stages := renumberStages
          ((sortedLevels st1.levels).foldl
            (emitLevelPassRegen st1.elements zone2 SECONDARY_SEQUENCE)
            ((sortedLevels st1.levels).foldl
              (emitLevelPassRegen st1.elements zone2 PRIMARY_SEQUENCE)
              (st1.stages.filter (fun s => !(s.zone_id == zid))))) } := by
    rw [regenerate_zone_stages, hfind1]
  refine ⟨_, hupd, ?_, ?_, ?_⟩
  · rw [hregen]
    simp only [hst1]
    rw [List.map_map, List.map_map]
    apply List.map_congr_left
    intro z hz
    by_cases hzc : (z.zone_id == zid) = true
    · have hzeq : z = zone := zone_unique_of_nodup hnd hfind hz (by simpa using hzc)
      simp only [Function.comp_apply, if_pos hzc, hz1id]
      rw [if_pos (by simp [hz1id])]
      simp only [hz2]
      rw [hzeq, hzid, hz1el, hz1id]
    · simp only [Function.comp_apply, if_neg hzc, if_neg hzc]
  · rw [hregen]
    obtain ⟨t1, ht1, hp1⟩ := foldl_stage_extends _ (fun s => s.zone_id = zone2.zone_id)
      (emitLevelPassRegen_extends st1.elements zone2 PRIMARY_SEQUENCE)
      (sortedLevels st1.levels) (st1.stages.filter (fun s => !(s.zone_id == zid)))
    obtain ⟨t2, ht2, hp2⟩ := foldl_stage_extends _ (fun s => s.zone_id = zone2.zone_id)
      (emitLevelPassRegen_extends st1.elements zone2 SECONDARY_SEQUENCE)
      (sortedLevels st1.levels) _
    refine ⟨t1 ++ t2, ?_, ?_⟩
    · intro s hs
      rcases List.mem_append.1 hs with h1 | h2
      · rw [hp1 s h1, hz2id]
      · rw [hp2 s h2, hz2id]
    · rw [ht2, ht1, List.append_assoc]
  · rw [hregen]
    show (renumberStages _).map (fun s => s.sequence_order) =
      List.range' 1 (renumberStages _).length
    rw [renumberStages_length]
    exact renumberStages_map_seq _

/-- Elements populating the concrete rename scenario: ten elements in a
two-level zone 1 (ten stages) plus one element in zone 2. -/
def elsC10 : List StructuralElement :=
  [⟨"f0", 1, "IfcFooting", "f0", 10, 10, 0, "L0"⟩,
   ⟨"c0", 2, "IfcColumn", "c0", 10, 10, 0, "L0"⟩,
   ⟨"b0", 3, "IfcBeam", "b0", 10, 10, 0, "L0"⟩,
   ⟨"m0", 4, "IfcMember", "m0", 10, 10, 0, "L0"⟩,
   ⟨"s0", 5, "IfcSlab", "s0", 10, 10, 0, "L0"⟩,
   ⟨"f1", 6, "IfcFooting", "f1", 10, 10, 3000, "L1"⟩,
   ⟨"c1", 7, "IfcColumn", "c1", 10, 10, 3000, "L1"⟩,
   ⟨"b1", 8, "IfcBeam", "b1", 10, 10, 3000, "L1"⟩,
   ⟨"m1", 9, "IfcMember", "m1", 10, 10, 3000, "L1"⟩,
   ⟨"s1", 10, "IfcSlab", "s1", 10, 10, 3000, "L1"⟩,
   ⟨"z2", 11, "IfcColumn", "z2", 500, 500, 0, "L0"⟩]

/-- Zones of the concrete rename scenario. -/
def zonesC10 : List ErectionZone :=
  [{ zone_id := 1, name := "Zone 1", grid_cells := [], x_range := (0, 100),
     y_range := (0, 100),
     elements := ["f0", "c0", "b0", "m0", "s0", "f1", "c1", "b1", "m1", "s1"],
     element_counts := [] },
   { zone_id := 2, name := "Zone 2", grid_cells := [], x_range := (400, 600),
     y_range := (400, 600), elements := ["z2"], element_counts := [] }]

/-- Concrete state after automatic stage generation (zone 1 has ten
stages "1.1".."1.10" with sequence orders 1..10, zone 2 has "2.1" with
order 11). -/
def exStateC10 : ServiceState :=
  { grid_axes := [], grid_cells := [], elements := elsC10, zones := zonesC10,
    stages := generate_stages elsC10 zonesC10 [("L0", 0), ("L1", 3000)] [],
    levels := [("L0", 0), ("L1", 3000)], grid_detected := true }

set_option maxRecDepth 100000 in
/-- Claim C10: a name-only `update_zone` call still deletes and
regenerates the zone's stages and renumbers `sequence_order` across all
stages by re-sorting on `(zone_id, stage_id)`, while every zone's element
membership stays unchanged; concretely, renaming zone 2 alone moves zone
1's stage "1.2" from sequence order 2 to 3 (the sort compares stage ids
as strings, so "1.10" slots between "1.1" and "1.2"). -/
theorem C10_rename_renumbers :
    (∀ (st : ServiceState) (zid : ℕ) (n : String) (zone : ErectionZone),
      st.zones.find? (fun z => z.zone_id == zid) = some zone →
      (st.zones.map (fun z => z.zone_id)).Nodup →
      (∃ st2, update_zone st zid (some n) none none = some st2 ∧
        st2.zones.map (fun z => (z.zone_id, z.elements)) =
          st.zones.map (fun z => (z.zone_id, z.elements)) ∧
        (∃ regen, (∀ s ∈ regen, s.zone_id = zid) ∧
          st2.stages = renumberStages
            ((st.stages.filter (fun s => !(s.zone_id == zid))) ++ regen)) ∧
        st2.stages.map (fun s => s.sequence_order) = List.range' 1 st2.stages.length)) ∧
    ((exStateC10.stages.find? (fun s => s.stage_id == "1.2")).map
        (fun s => s.sequence_order) = some 2) ∧
    ((update_zone exStateC10 2 (some "Renamed") none none).map (fun st2 =>
        ((st2.stages.find? (fun s => s.stage_id == "1.2")).map (fun s => s.sequence_order),
         st2.zones.map (fun z => (z.zone_id, z.elements)))) =
      some (some 3, exStateC10.zones.map (fun z => (z.zone_id, z.elements)))) := by
  refine ⟨?_, ?_, ?_⟩
  · intro st zid n zone hfind hnd
    exact update_zone_rename_effects st zid n zone hfind hnd
  · decide
  · decide

set_option maxRecDepth 100000 in
/-- Witness for C10 applied at the concrete state and zone 2. -/
theorem C10_rename_renumbers_witness :
    ∃ st2, update_zone exStateC10 2 (some "Renamed") none none = some st2 ∧
      st2.zones.map (fun z => (z.zone_id, z.elements)) =
        exStateC10.zones.map (fun z => (z.zone_id, z.elements)) ∧
      (∃ regen, (∀ s ∈ regen, s.zone_id = 2) ∧
        st2.stages = renumberStages
          ((exStateC10.stages.filter (fun s => !(s.zone_id == 2))) ++ regen)) ∧
      st2.stages.map (fun s => s.sequence_order) = List.range' 1 st2.stages.length :=
  C10_rename_renumbers.1 exStateC10 2 "Renamed"
    ({ zone_id := 2, name := "Zone 2", grid_cells := [], x_range := (400, 600),
       y_range := (400, 600), elements := ["z2"], element_counts := [] })
    (by decide) (by decide)

/-! Order theory for the Python string comparison and the stage sort key. -/

theorem charListLe_refl : ∀ (l : List Char), charListLe l l = true
  | [] => rfl
  | a :: l => by
    rw [charListLe, if_neg (lt_irrefl a), if_neg (lt_irrefl a)]
    exact charListLe_refl l

theorem charListLe_total : ∀ (a b : List Char),
    charListLe a b = true ∨ charListLe b a = true
  | [], _ => Or.inl rfl
  | _ :: _, [] => Or.inr rfl
  | a :: as, b :: bs => by
    rcases lt_trichotomy a b with h | h | h
    · left
      rw [charListLe, if_pos h]
    · subst h
      rw [charListLe, if_neg (lt_irrefl a), if_neg (lt_irrefl a),
        charListLe, if_neg (lt_irrefl a), if_neg (lt_irrefl a)]
      exact charListLe_total as bs
    · right
      rw [charListLe, if_pos h]

theorem charListLe_trans : ∀ (a b c : List Char),
    charListLe a b = true → charListLe b c = true → charListLe a c = true
  | [], _, _, _, _ => rfl
  | a :: as, [], c, h, _ => by rw [charListLe] at h; cases h
  | a :: as, b :: bs, [], _, h2 => by rw [charListLe] at h2; cases h2
  | a :: as, b :: bs, c :: cs, h1, h2 => by
    rw [charListLe] at h1 h2 ⊢
    rcases lt_trichotomy a b with hab | hab | hab
    · rcases lt_trichotomy b c with hbc | hbc | hbc
      · rw [if_pos (lt_trans hab hbc)]
      · subst hbc
        rw [if_pos hab]
      · rw [if_pos hbc, if_neg (lt_asymm hbc)] at h2
        cases h2
    · subst hab
      rcases lt_trichotomy a c with hac | hac | hac
      · rw [if_pos hac]
      · subst hac
        rw [if_neg (lt_irrefl a), if_neg (lt_irrefl a)] at h1 h2 ⊢
        exact charListLe_trans as bs cs h1 h2
      · rw [if_pos hac, if_neg (lt_asymm hac)] at h2
        cases h2
    · rw [if_pos hab, if_neg (lt_asymm hab)] at h1
      cases h1

theorem charListLe_append_same : ∀ (P a b : List Char),
    charListLe (P ++ a) (P ++ b) = charListLe a b
  | [], _, _ => rfl
  | c :: P, a, b => by
    rw [List.cons_append, List.cons_append, charListLe,
      if_neg (lt_irrefl c), if_neg (lt_irrefl c)]
    exact charListLe_append_same P a b

theorem strLe_total (s t : String) : strLe s t = true ∨ strLe t s = true :=
  charListLe_total s.data t.data

theorem strLe_trans {s t u : String} (h1 : strLe s t = true) (h2 : strLe t u = true) :
    strLe s u = true :=
  charListLe_trans s.data t.data u.data h1 h2

theorem stageKeyLe_total (s t : ErectionStage) :
    stageKeyLe s t = true ∨ stageKeyLe t s = true := by
  rw [stageKeyLe, stageKeyLe]
  by_cases h : (s.zone_id == t.zone_id) = true
  · have hsz : s.zone_id = t.zone_id := by simpa using h
    rw [if_pos h, if_pos (by simp [hsz])]
    exact strLe_total s.stage_id t.stage_id
  · have hne : s.zone_id ≠ t.zone_id := by simpa using h
    rw [if_neg h, if_neg (by simpa using Ne.symm hne)]
    rcases Nat.lt_or_ge s.zone_id t.zone_id with hlt | hge
    · left
      exact decide_eq_true hlt
    · right
      simp only [decide_eq_true_eq]
      omega

theorem stageKeyLe_trans (s t u : ErectionStage)
    (h1 : stageKeyLe s t = true) (h2 : stageKeyLe t u = true) :
    stageKeyLe s u = true := by
  rw [stageKeyLe] at h1 h2 ⊢
  by_cases hst : (s.zone_id == t.zone_id) = true
  · rw [if_pos hst] at h1
    have hst2 : s.zone_id = t.zone_id := by simpa using hst
    by_cases htu : (t.zone_id == u.zone_id) = true
    · rw [if_pos htu] at h2
      have htu2 : t.zone_id = u.zone_id := by simpa using htu
      rw [if_pos (by simp [hst2, htu2])]
      exact strLe_trans h1 h2
    · rw [if_neg htu] at h2
      have htu2 : t.zone_id < u.zone_id := by simpa using h2
      rw [if_neg (by simp; omega)]
      simp only [decide_eq_true_eq]
      omega
  · rw [if_neg hst] at h1
    have hst2 : s.zone_id < t.zone_id := by simpa using h1
    by_cases htu : (t.zone_id == u.zone_id) = true
    · have htu2 : t.zone_id = u.zone_id := by simpa using htu
      rw [if_neg (by simp; omega)]
      simp only [decide_eq_true_eq]
      omega
    · rw [if_neg htu] at h2
      have htu2 : t.zone_id < u.zone_id := by simpa using h2
      rw [if_neg (by simp; omega)]
      simp only [decide_eq_true_eq]
      omega

theorem pairwise_insertLe {le : α → α → Bool}
    (htot : ∀ a b, le a b = true ∨ le b a = true)
    (htrans : ∀ a b c, le a b = true → le b c = true → le a c = true)
    (a : α) : ∀ {l : List α}, List.Pairwise (fun x y => le x y = true) l →
      List.Pairwise (fun x y => le x y = true) (insertLe le a l)
  | [], _ => by
    rw [insertLe]
    exact List.pairwise_singleton _ a
  | b :: l, hp => by
    rw [insertLe]
    split
    · rename_i hab
      refine List.Pairwise.cons ?_ hp
      intro c hc
      rcases List.mem_cons.1 hc with h1 | h2
      · rw [h1]
        exact hab
      · exact htrans a b c hab ((List.pairwise_cons.1 hp).1 c h2)
    · rename_i hab
      have hba : le b a = true := by
        rcases htot a b with h | h
        · exact absurd h hab
        · exact h
      have hp2 := List.pairwise_cons.1 hp
      refine List.Pairwise.cons ?_ (pairwise_insertLe htot htrans a hp2.2)
      intro c hc
      rcases List.mem_cons.1 ((insertLe_perm le a l).mem_iff.1 hc) with h1 | h2
      · rw [h1]
        exact hba
      · exact hp2.1 c h2

theorem pairwise_sortByKey {le : α → α → Bool}
    (htot : ∀ a b, le a b = true ∨ le b a = true)
    (htrans : ∀ a b c, le a b = true → le b c = true → le a c = true) :
    ∀ (l : List α), List.Pairwise (fun x y => le x y = true) (sortByKey le l)
  | [] => List.Pairwise.nil
  | a :: l => pairwise_insertLe htot htrans a (pairwise_sortByKey htot htrans l)

theorem mem_renumAux : ∀ {n : ℕ} {l : List ErectionStage} {s : ErectionStage},
    s ∈ renumAux n l →
    ∃ p, ∃ (hp : p < l.length), s = { l.get ⟨p, hp⟩ with sequence_order := n + p }
  | _, [], s, h => absurd h (List.not_mem_nil s)
  | n, a :: l, s, h => by
    rw [renumAux] at h
    rcases List.mem_cons.1 h with h1 | h2
    · exact ⟨0, by simp, by simpa using h1⟩
    · obtain ⟨p, hp, hs⟩ := mem_renumAux h2
      refine ⟨p + 1, by simpa using Nat.succ_lt_succ hp, ?_⟩
      rw [hs]
      have : (a :: l).get ⟨p + 1, by simpa using Nat.succ_lt_succ hp⟩ = l.get ⟨p, hp⟩ := rfl
      rw [this]
      have harith : n + 1 + p = n + (p + 1) := by omega
      rw [harith]

theorem stageKeyLe_fields (a b a2 b2 : ErectionStage)
    (hz1 : a.zone_id = a2.zone_id) (hs1 : a.stage_id = a2.stage_id)
    (hz2 : b.zone_id = b2.zone_id) (hs2 : b.stage_id = b2.stage_id) :
    stageKeyLe a b = stageKeyLe a2 b2 := by
  rw [stageKeyLe, stageKeyLe, hz1, hs1, hz2, hs2]

theorem strLe_digit_suffix_false (z : ℕ) {i j : ℕ} (h1 : 1 ≤ i) (h2 : i < j)
    (h3 : j ≤ 9) :
    strLe (Nat.repr z ++ "." ++ Nat.repr j) (Nat.repr z ++ "." ++ Nat.repr i) = false := by
  rw [strLe]
  simp only [String.data_append]
  rw [charListLe_append_same]
  have h4 : i ≤ 8 := by omega
  interval_cases i <;> interval_cases j <;> decide

/-! Claim C1: monotonicity of `sequence_order` along the generation walk. -/

/-- Invariant of the stage-generation folds: stages so far have strictly
increasing `sequence_order`, all below the running counter. -/
def StageInv (acc : List ErectionStage × ℕ) : Prop :=
  List.Pairwise (fun a b => a.sequence_order < b.sequence_order) acc.1 ∧
  ∀ s ∈ acc.1, s.sequence_order < acc.2

theorem foldl_preserves {β : Type} {α : Type} {P : β → Prop} (f : β → α → β)
    (hf : ∀ b a, P b → P (f b a)) :
    ∀ (l : List α) (b : β), P b → P (l.foldl f b)
  | [], _, h => h
  | a :: l, b, h => foldl_preserves f hf l (f b a) (hf b a h)

theorem emitCategoryGen_inv (els : List StructuralElement) (zone : ErectionZone)
    (lv : String) (acc : List ErectionStage × ℕ) (etype : String)
    (h : StageInv acc) : StageInv (emitCategoryGen els zone lv acc etype) := by
  simp only [emitCategoryGen]
  by_cases hS : (stageElementsFor els (levelElements els zone lv) etype).isEmpty
  · rw [if_pos hS]
    exact h
  · rw [if_neg hS]
    constructor
    · rw [List.pairwise_append]
      refine ⟨h.1, List.pairwise_singleton _ _, ?_⟩
      intro a ha b hb
      rw [List.mem_singleton.1 hb]
      exact h.2 a ha
    · intro s hs
      rcases List.mem_append.1 hs with h1 | h2
      · exact Nat.lt_succ_of_lt (h.2 s h1)
      · rw [List.mem_singleton.1 h2]
        exact Nat.lt_succ_self _

theorem emitLevelPassGen_inv (els : List StructuralElement) (zone : ErectionZone)
    (cats : List String) (acc : List ErectionStage × ℕ) (lv : String × ℚ)
    (h : StageInv acc) : StageInv (emitLevelPassGen els zone cats acc lv) := by
  simp only [emitLevelPassGen]
  by_cases hL : (levelElements els zone lv.1).isEmpty
  · rw [if_pos hL]
    exact h
  · rw [if_neg hL]
    exact foldl_preserves _ (fun b a => emitCategoryGen_inv els zone lv.1 b a) cats acc h

theorem generate_stages_pairwise (els : List StructuralElement)
    (zones : List ErectionZone) (levels : List (String × ℚ)) :
    List.Pairwise (fun a b => a.sequence_order < b.sequence_order)
      (generate_stages els zones levels []) := by
  rw [generate_stages]
  have h := foldl_preserves
    (fun acc zone =>
      (sortedLevels levels).foldl (emitLevelPassGen els zone SECONDARY_SEQUENCE)
        ((sortedLevels levels).foldl (emitLevelPassGen els zone PRIMARY_SEQUENCE) acc))
    (fun acc zone hacc =>
      foldl_preserves _ (fun b a => emitLevelPassGen_inv els zone SECONDARY_SEQUENCE b a)
        (sortedLevels levels) _
        (foldl_preserves _ (fun b a => emitLevelPassGen_inv els zone PRIMARY_SEQUENCE b a)
          (sortedLevels levels) acc hacc))
    (sortByKey (fun a b => decide (a.zone_id ≤ b.zone_id)) zones)
    (([], 1) : List ErectionStage × ℕ)
    ⟨List.Pairwise.nil, fun s hs => absurd hs (List.not_mem_nil s)⟩
  exact h.1

theorem regenerate_replace_stages (st : ServiceState) (zid : ℕ) (zone w : ErectionZone)
    (hfind : st.zones.find? (fun z => z.zone_id == zid) = some zone)
    (hw : w.zone_id = zid) :
    ∃ L, (regenerate_zone_stages
      { st with zones := st.zones.map (fun z => if z.zone_id == zid then w else z) } zid).stages =
      renumberStages L := by
  rw [regenerate_zone_stages]
  have hf2 : ({ st with zones := st.zones.map (fun z => if z.zone_id == zid then w else z) }
      : ServiceState).zones.find? (fun z => z.zone_id == zid) = some w :=
    find_replace hfind w hw
  rw [hf2]
  exact ⟨_, rfl⟩

theorem update_zone_stages_renumbered {st st2 : ServiceState} {zid : ℕ}
    {nm : Option String} {xr yr : Option (ℚ × ℚ)}
    (h : update_zone st zid nm xr yr = some st2) :
    ∃ L, st2.stages = renumberStages L := by
  match hfind : st.zones.find? (fun z => z.zone_id == zid) with
  | none =>
    rw [update_zone, hfind] at h
    cases h
  | some zone =>
    have hzid : zone.zone_id = zid := by simpa using List.find?_some hfind
    rcases nm with _ | n <;> rcases xr with _ | xrv <;> rcases yr with _ | yrv <;>
      simp only [update_zone, hfind, Option.isSome_some, Option.isSome_none, or_self,
        Bool.or_self, Bool.false_eq_true, if_true, if_false,
        Option.some.injEq, or_true, true_or, or_false, false_or, if_neg, ite_true,
        ite_false] at h <;>
      rw [← h] <;>
      apply regenerate_replace_stages st zid zone _ hfind <;>
      first
        | (split <;> simp [hzid])
        | simp [hzid]

/-- Elements of the concrete regeneration scenario: five primary
categories on each of two levels in a single zone, giving ten stages. -/
def elsC1 : List StructuralElement :=
  [⟨"f0", 1, "IfcFooting", "f0", 10, 10, 0, "L0"⟩,
   ⟨"c0", 2, "IfcColumn", "c0", 10, 10, 0, "L0"⟩,
   ⟨"b0", 3, "IfcBeam", "b0", 10, 10, 0, "L0"⟩,
   ⟨"m0", 4, "IfcMember", "m0", 10, 10, 0, "L0"⟩,
   ⟨"s0", 5, "IfcSlab", "s0", 10, 10, 0, "L0"⟩,
   ⟨"f1", 6, "IfcFooting", "f1", 10, 10, 3000, "L1"⟩,
   ⟨"c1", 7, "IfcColumn", "c1", 10, 10, 3000, "L1"⟩,
   ⟨"b1", 8, "IfcBeam", "b1", 10, 10, 3000, "L1"⟩,
   ⟨"m1", 9, "IfcMember", "m1", 10, 10, 3000, "L1"⟩,
   ⟨"s1", 10, "IfcSlab", "s1", 10, 10, 3000, "L1"⟩]

/-- Concrete single-zone state whose zone regenerates ten stages. -/
def exStateC1 : ServiceState :=
  { grid_axes := [], grid_cells := [], elements := elsC1,
    zones := [{ zone_id := 1, name := "Zone 1", grid_cells := [], x_range := (0, 100),
                y_range := (0, 100),
                elements := ["f0", "c0", "b0", "m0", "s0", "f1", "c1", "b1", "m1", "s1"],
                element_counts := [] }],
    stages := generate_stages elsC1
      [{ zone_id := 1, name := "Zone 1", grid_cells := [], x_range := (0, 100),
         y_range := (0, 100),
         elements := ["f0", "c0", "b0", "m0", "s0", "f1", "c1", "b1", "m1", "s1"],
         element_counts := [] }] [("L0", 0), ("L1", 3000)] [],
    levels := [("L0", 0), ("L1", 3000)], grid_detected := true }

set_option maxRecDepth 400000 in
/-- Counterexample to claim C1 as stated: after a zone-boundary update the
regeneration walk emits stage "1.9" (level L1 bracing) before stage
"1.10" (level L1 slabs), yet the global renumbering — which sorts stage
ids as strings, placing "1.10" right after "1.1" — gives them sequence
orders 10 and 2, so `sequence_order` is not increasing along the
level/category walk. -/
theorem C1_counterexample :
    (update_zone exStateC1 1 none (some (0, 1000)) none).map (fun st2 =>
      ((st2.stages.find? (fun s => s.stage_id == "1.9")).map (fun s => s.sequence_order),
       (st2.stages.find? (fun s => s.stage_id == "1.10")).map (fun s => s.sequence_order))) =
      some (some 10, some 2) := by
  decide

set_option maxRecDepth 8000 in
/-- Claim C1 amended: after automatic generation, `sequence_order` is
strictly increasing along the emission order (level elevation ascending,
category rank ascending, then the secondary pass) within every zone;
after a zone update regenerates and renumbers stages, the per-zone order
is again increasing along the walk only as far as the stage-id suffixes
stay single digits (the renumbering compares stage ids as strings, so
with ten or more stages in a zone the walk order breaks — see the
counterexample). -/
theorem C1_sequence_order_amended :
    (∀ (els : List StructuralElement) (zones : List ErectionZone)
        (levels : List (String × ℚ)) (z : ℕ),
      List.Pairwise (fun a b => a.sequence_order < b.sequence_order)
        ((generate_stages els zones levels []).filter (fun s => s.zone_id == z))) ∧
    (∀ (st st2 : ServiceState) (zid : ℕ) (nm : Option String) (xr yr : Option (ℚ × ℚ)),
      update_zone st zid nm xr yr = some st2 →
      ∀ s ∈ st2.stages, ∀ t ∈ st2.stages, s.zone_id = t.zone_id →
      ∀ i j : ℕ, 1 ≤ i → i < j → j ≤ 9 →
      s.stage_id = Nat.repr s.zone_id ++ "." ++ Nat.repr i →
      t.stage_id = Nat.repr t.zone_id ++ "." ++ Nat.repr j →
      s.sequence_order < t.sequence_order) := by
  constructor
  · intro els zones levels z
    exact (generate_stages_pairwise els zones levels).filter _
  · intro st st2 zid nm xr yr hupd s hs t ht hzz i j hi hij hj hsid htid
    obtain ⟨L, hL⟩ := update_zone_stages_renumbered hupd
    rw [hL, renumberStages] at hs ht
    obtain ⟨p, hp, hsp⟩ := mem_renumAux hs
    obtain ⟨q, hq, htq⟩ := mem_renumAux ht
    have hsorted := pairwise_sortByKey stageKeyLe_total stageKeyLe_trans L
    have hfalse : strLe t.stage_id s.stage_id = false := by
      rw [hsid, htid, hzz]
      exact strLe_digit_suffix_false t.zone_id hi hij hj
    have hso : s.sequence_order = 1 + p := by rw [hsp]
    have hto : t.sequence_order = 1 + q := by rw [htq]
    rcases Nat.lt_trichotomy p q with hpq | hpq | hpq
    · omega
    · exfalso
      subst hpq
      have hst : s = t := by rw [hsp, htq]
      have hid : s.stage_id = t.stage_id := by rw [hst]
      have htrue : strLe t.stage_id s.stage_id = true := by
        rw [hid]
        exact charListLe_refl _
      rw [htrue] at hfalse
      cases hfalse
    · exfalso
      have hle : stageKeyLe ((sortByKey stageKeyLe L).get ⟨q, hq⟩)
          ((sortByKey stageKeyLe L).get ⟨p, hp⟩) = true := by
        have := List.pairwise_iff_getElem.1 hsorted q p hq hp hpq
        exact this
      have hfields : stageKeyLe t s = stageKeyLe ((sortByKey stageKeyLe L).get ⟨q, hq⟩)
          ((sortByKey stageKeyLe L).get ⟨p, hp⟩) := by
        apply stageKeyLe_fields
        · rw [htq]
        · rw [htq]
        · rw [hsp]
        · rw [hsp]
      have hts : stageKeyLe t s = false := by
        rw [stageKeyLe, if_pos (by simp [hzz]), hfalse]
      rw [hfields] at hts
      rw [hts] at hle
      cases hle

/-- State after the update in the concrete regeneration scenario. -/
def st2C1 : ServiceState :=
  (update_zone exStateC1 1 none (some (0, 1000)) none).getD exStateC1

set_option maxRecDepth 400000 in
/-- Witness for the amended C1 at the concrete state: the regenerated
stages "1.1" and "1.2" (single-digit suffixes 1 < 2) keep increasing
sequence orders. -/
theorem C1_sequence_order_amended_witness :
    ((st2C1.stages.find? (fun s => s.stage_id == "1.1")).getD default).sequence_order <
    ((st2C1.stages.find? (fun s => s.stage_id == "1.2")).getD default).sequence_order := by
  apply C1_sequence_order_amended.2 exStateC1 st2C1 1 none (some (0, 1000)) none
    (by decide) _ (by decide) _ (by decide) (by decide) 1 2 (by decide) (by decide)
    (by decide) (by decide) (by decide)

theorem firstDedup_const [BEq α] [LawfulBEq α] (c : α) (l : List α) :
    l ≠ [] → (∀ a ∈ l, a = c) → firstDedup l = [c] := by
  induction l with
  | nil => intro h; exact absurd rfl h
  | cons a t ih =>
    intro _ hall
    have ha : a = c := hall a (List.mem_cons_self a t)
    cases t with
    | nil => simp [firstDedup, ha]
    | cons b u =>
      have ht := ih (by simp) (fun x hx => hall x (List.mem_cons_of_mem a hx))
      have hstep : firstDedup (a :: b :: u) =
          a :: (firstDedup (b :: u)).filter (fun x => !(x == a)) := rfl
      rw [hstep, ht, ha]
      simp

theorem sortedLevelKeys_const (area : List StructuralElement) (L : String)
    (hne : area ≠ []) (hl : ∀ e ∈ area, e.level = L) :
    sortedLevelKeys area = [L] := by
  unfold sortedLevelKeys
  rw [firstDedup_const L (area.map (·.level)) (by simpa using hne)
    (by intro a ha; obtain ⟨e, he, rfl⟩ := List.mem_map.1 ha; exact hl e he)]
  rfl

theorem levelGroup_const (area : List StructuralElement) (L : String)
    (hl : ∀ e ∈ area, e.level = L) : levelGroup area L = area := by
  unfold levelGroup
  apply List.filter_eq_self.2
  intro e he
  simp [hl e he]

theorem map_filter_ne_nil (p : α → Bool) (f : α → β) (l : List α)
    (h : ∃ e ∈ l, p e = true) : ((l.filter p).map f).isEmpty = false := by
  obtain ⟨e, he, hp⟩ := h
  have hm : e ∈ l.filter p := List.mem_filter.2 ⟨he, hp⟩
  cases hfp : l.filter p with
  | nil => rw [hfp] at hm; cases hm
  | cons a t => rfl

theorem append_isEmpty_false (l1 l2 : List α) (h : l1.isEmpty = false) :
    (l1 ++ l2).isEmpty = false := by
  cases l1 with
  | nil => simp at h
  | cons a t => rfl

/-- One sub-range of a user sequence whose area is nonempty, lies on one
level, and contains a footing, a column and a beam emits exactly the
three stages footings, columns, beams (at consecutive sub-stage numbers
and sequence orders). -/
theorem emitUserRange_three (st : ServiceState) (sn : ℕ) (u_s u_e v1 v2 : String)
    (S : List ErectionStage) (k n : ℕ) (L : String)
    (hne : areaElements st v1 v2 u_s u_e ≠ [])
    (hl : ∀ e ∈ areaElements st v1 v2 u_s u_e, e.level = L)
    (hf : ∃ e ∈ areaElements st v1 v2 u_s u_e,
      (structTypes "footings").contains e.ifc_type = true)
    (hc : ∃ e ∈ areaElements st v1 v2 u_s u_e,
      (structTypes "columns").contains e.ifc_type = true)
    (hb : ∃ e ∈ areaElements st v1 v2 u_s u_e,
      (structTypes "beams").contains e.ifc_type = true) :
    ∃ ids1 ids2 ids3 : List String,
    emitUserRange st sn true u_s u_e (S, k, n) (v1, v2) =
      (S ++
        [{ stage_id := Nat.repr sn ++ "." ++ Nat.repr k, zone_id := sn,
           element_type := "footings",
           grid_range := "Grid " ++ v1 ++ "-" ++ v2 ++ " / " ++ u_s ++ "-" ++ u_e,
           elements := ids1, sequence_order := n },
         { stage_id := Nat.repr sn ++ "." ++ Nat.repr (k + 1), zone_id := sn,
           element_type := "columns",
           grid_range := "Grid " ++ v1 ++ "-" ++ v2 ++ " / " ++ u_s ++ "-" ++ u_e,
           elements := ids2, sequence_order := n + 1 },
         { stage_id := Nat.repr sn ++ "." ++ Nat.repr (k + 1 + 1), zone_id := sn,
           element_type := "beams",
           grid_range := "Grid " ++ v1 ++ "-" ++ v2 ++ " / " ++ u_s ++ "-" ++ u_e,
           elements := ids3, sequence_order := n + 1 + 1 }],
       k + 1 + 1 + 1, n + 1 + 1 + 1) := by
  have hie : (areaElements st v1 v2 u_s u_e).isEmpty = false := by
    cases h : areaElements st v1 v2 u_s u_e with
    | nil => exact absurd h hne
    | cons a t => rfl
  have hkeys := sortedLevelKeys_const (areaElements st v1 v2 u_s u_e) L hne hl
  have hgrp := levelGroup_const (areaElements st v1 v2 u_s u_e) L hl
  have hmulti : decide (1 < ([L] : List String).length) = false := rfl
  have hfie := map_filter_ne_nil (fun e => (structTypes "footings").contains e.ifc_type)
    (fun e => e.express_id) (areaElements st v1 v2 u_s u_e) hf
  have hcie := map_filter_ne_nil (fun e => (structTypes "columns").contains e.ifc_type)
    (fun e => e.express_id) (areaElements st v1 v2 u_s u_e) hc
  have hbie := map_filter_ne_nil (fun e => (structTypes "beams").contains e.ifc_type)
    (fun e => e.express_id) (areaElements st v1 v2 u_s u_e) hb
  have habie := append_isEmpty_false _
    (((areaElements st v1 v2 u_s u_e).filter
      (fun e => (structTypes "bracing").contains e.ifc_type)).map (fun e => e.express_id)) hbie
  refine ⟨(((areaElements st v1 v2 u_s u_e).filter
      (fun e => (structTypes "footings").contains e.ifc_type)).map
        (fun e => e.express_id)).map Nat.repr,
    (((areaElements st v1 v2 u_s u_e).filter
      (fun e => (structTypes "columns").contains e.ifc_type)).map
        (fun e => e.express_id)).map Nat.repr,
    ((((areaElements st v1 v2 u_s u_e).filter
      (fun e => (structTypes "beams").contains e.ifc_type)).map (fun e => e.express_id)) ++
     (((areaElements st v1 v2 u_s u_e).filter
      (fun e => (structTypes "bracing").contains e.ifc_type)).map
        (fun e => e.express_id))).map Nat.repr, ?_⟩
  simp only [emitUserRange, hie, Bool.false_eq_true, if_false, hkeys, hmulti,
    List.foldl_cons, List.foldl_nil, emitUserLevel, hgrp, hfie, hcie, habie,
    Bool.not_false, Bool.true_and, Bool.and_self, eq_self_iff_true, if_true,
    pushUserStage, List.append_assoc, List.cons_append, List.nil_append]

/-- Claim C5: for the user-declared sequence over range 2-8 / A-J with a
split at 5 and footings included, when both sub-ranges (2-5 and 5-8)
resolve to a nonempty single-level element set containing footings,
columns, and beams, `generate_from_user_sequences` produces exactly
three stages per sub-range in the order footings, columns, beams — six
stages total with sequence orders 1 through 6 and stage ids 1.1 through
1.6 — and the result holds exactly the one new zone, so all previously
existing zones and stages are replaced. -/
theorem C5_user_sequence (st : ServiceState) (L1 L2 : String)
    (hne1 : areaElements st "2" "5" "A" "J" ≠ [])
    (hl1 : ∀ e ∈ areaElements st "2" "5" "A" "J", e.level = L1)
    (hf1 : ∃ e ∈ areaElements st "2" "5" "A" "J",
      (structTypes "footings").contains e.ifc_type = true)
    (hc1 : ∃ e ∈ areaElements st "2" "5" "A" "J",
      (structTypes "columns").contains e.ifc_type = true)
    (hb1 : ∃ e ∈ areaElements st "2" "5" "A" "J",
      (structTypes "beams").contains e.ifc_type = true)
    (hne2 : areaElements st "5" "8" "A" "J" ≠ [])
    (hl2 : ∀ e ∈ areaElements st "5" "8" "A" "J", e.level = L2)
    (hf2 : ∃ e ∈ areaElements st "5" "8" "A" "J",
      (structTypes "footings").contains e.ifc_type = true)
    (hc2 : ∃ e ∈ areaElements st "5" "8" "A" "J",
      (structTypes "columns").contains e.ifc_type = true)
    (hb2 : ∃ e ∈ areaElements st "5" "8" "A" "J",
      (structTypes "beams").contains e.ifc_type = true) :
    ((generate_from_user_sequences st [⟨1, "2", "8", "A", "J", ["5"]⟩] true).stages.map
        (fun s => (s.stage_id, s.sequence_order, s.element_type, s.grid_range)) =
      [("1.1", 1, "footings", "Grid 2-5 / A-J"), ("1.2", 2, "columns", "Grid 2-5 / A-J"),
       ("1.3", 3, "beams", "Grid 2-5 / A-J"), ("1.4", 4, "footings", "Grid 5-8 / A-J"),
       ("1.5", 5, "columns", "Grid 5-8 / A-J"), ("1.6", 6, "beams", "Grid 5-8 / A-J")]) ∧
    ((generate_from_user_sequences st [⟨1, "2", "8", "A", "J", ["5"]⟩] true).zones.map
        (fun z => z.zone_id) = [1]) := by
  obtain ⟨ids1, ids2, ids3, h1⟩ :=
    emitUserRange_three st 1 "A" "J" "2" "5" [] 1 1 L1 hne1 hl1 hf1 hc1 hb1
  obtain ⟨ids4, ids5, ids6, h2⟩ :=
    emitUserRange_three st 1 "A" "J" "5" "8"
      ([] ++
        [{ stage_id := Nat.repr 1 ++ "." ++ Nat.repr 1, zone_id := 1,
           element_type := "footings",
           grid_range := "Grid " ++ "2" ++ "-" ++ "5" ++ " / " ++ "A" ++ "-" ++ "J",
           elements := ids1, sequence_order := 1 },
         { stage_id := Nat.repr 1 ++ "." ++ Nat.repr (1 + 1), zone_id := 1,
           element_type := "columns",
           grid_range := "Grid " ++ "2" ++ "-" ++ "5" ++ " / " ++ "A" ++ "-" ++ "J",
           elements := ids2, sequence_order := 1 + 1 },
         { stage_id := Nat.repr 1 ++ "." ++ Nat.repr (1 + 1 + 1), zone_id := 1,
           element_type := "beams",
           grid_range := "Grid " ++ "2" ++ "-" ++ "5" ++ " / " ++ "A" ++ "-" ++ "J",
           elements := ids3, sequence_order := 1 + 1 + 1 }])
      (1 + 1 + 1 + 1) (1 + 1 + 1 + 1) L2 hne2 hl2 hf2 hc2 hb2
  constructor
  · dsimp only [generate_from_user_sequences, processUserSequence, sortByKey, insertLe,
      adjacentPairs, List.tail_cons, List.zip, List.zipWith, List.foldl,
      List.cons_append, List.nil_append]
    rw [h1, h2]
    simp only [List.nil_append, List.cons_append, List.map_cons, List.map_nil]
    decide
  · dsimp only [generate_from_user_sequences, processUserSequence, sortByKey, insertLe,
      adjacentPairs, List.tail_cons, List.zip, List.zipWith, List.foldl,
      List.cons_append, List.nil_append]
    simp only [insertZoneById, List.any_nil, Bool.false_eq_true, if_false,
      List.nil_append, List.map_cons, List.map_nil]

/-- Grid axes of the concrete user-sequence scenario: V rows 2..8 every
5000 mm and U columns A..J (I skipped). -/
def axes5 : List GridAxis :=
  [⟨"2", "V", 0⟩, ⟨"3", "V", 5000⟩, ⟨"4", "V", 10000⟩, ⟨"5", "V", 15000⟩,
   ⟨"6", "V", 20000⟩, ⟨"7", "V", 25000⟩, ⟨"8", "V", 30000⟩,
   ⟨"A", "U", 0⟩, ⟨"B", "U", 1000⟩, ⟨"C", "U", 2000⟩, ⟨"D", "U", 3000⟩,
   ⟨"E", "U", 4000⟩, ⟨"F", "U", 5000⟩, ⟨"G", "U", 6000⟩, ⟨"H", "U", 7000⟩,
   ⟨"J", "U", 9000⟩]

/-- Elements of the concrete user-sequence scenario: a footing, a column
and a beam in each of the sub-ranges 2-5 and 5-8, all on level GF. -/
def els5 : List StructuralElement :=
  [⟨"g1", 1, "IfcFooting", "g1", 4000, 5000, 0, "GF"⟩,
   ⟨"g2", 2, "IfcColumn", "g2", 4000, 5000, 0, "GF"⟩,
   ⟨"g3", 3, "IfcBeam", "g3", 4000, 5000, 0, "GF"⟩,
   ⟨"g4", 4, "IfcFooting", "g4", 4000, 25000, 0, "GF"⟩,
   ⟨"g5", 5, "IfcColumn", "g5", 4000, 25000, 0, "GF"⟩,
   ⟨"g6", 6, "IfcBeam", "g6", 4000, 25000, 0, "GF"⟩]

/-- Concrete state for the user-sequence scenario, with a pre-existing
zone and stage that the generation must replace. -/
def exStateC5 : ServiceState :=
  { grid_axes := axes5, grid_cells := [], elements := els5,
    zones := [⟨7, "Old", [], (0, 0), (0, 0), [], []⟩],
    stages := [⟨"7.1", 7, "columns", "", [], 1⟩],
    levels := [("GF", 0)], grid_detected := true }

set_option maxRecDepth 400000 in
/-- Witness for C5 at the concrete scenario state: six stages 1.1-1.6
with orders 1..6 in footings/columns/beams order per sub-range, and the
pre-existing zone 7 and stage 7.1 are gone. -/
theorem C5_user_sequence_witness :
    ((generate_from_user_sequences exStateC5 [⟨1, "2", "8", "A", "J", ["5"]⟩] true).stages.map
        (fun s => (s.stage_id, s.sequence_order, s.element_type, s.grid_range)) =
      [("1.1", 1, "footings", "Grid 2-5 / A-J"), ("1.2", 2, "columns", "Grid 2-5 / A-J"),
       ("1.3", 3, "beams", "Grid 2-5 / A-J"), ("1.4", 4, "footings", "Grid 5-8 / A-J"),
       ("1.5", 5, "columns", "Grid 5-8 / A-J"), ("1.6", 6, "beams", "Grid 5-8 / A-J")]) ∧
    ((generate_from_user_sequences exStateC5 [⟨1, "2", "8", "A", "J", ["5"]⟩] true).zones.map
        (fun z => z.zone_id) = [1]) :=
  C5_user_sequence exStateC5 "GF" "GF" (by decide) (by decide) (by decide) (by decide)
    (by decide) (by decide) (by decide) (by decide) (by decide) (by decide)

end ErectionService